import Mathlib

/-!
Verification of the synthetic transaction & financial-posting generator of the
enterprise-financial-kpi-platform repository.

The Python sources under src/ are shallowly embedded here:

* dates/timestamps are a structure of calendar fields (year, month, day) with
  proleptic-Gregorian arithmetic (leap years per the 4/100/400 rule), exactly
  the semantics pandas Timestamps give the code for the date granularity it
  uses;
* real arithmetic is embedded as exact rational arithmetic (the claims under
  study are about the algebra of the computation, not float rounding);
* the shared numpy generator (np.random.default_rng, seeded once in
  src/utils.py) is embedded as explicit oracle functions handed to each stage:
  every random draw of the Python code becomes a lookup into an oracle at an
  explicit index, so that a property can be proved for every possible draw
  sequence or refuted at one concrete draw sequence.  Uniform draws are
  rationals in [0,1); normal and Poisson draws are unconstrained rational /
  natural oracle values, matching the support of those distributions;
* pandas DataFrames become lists of structures together with an explicit
  column-name list where the schema itself is under test.
-/

/-! ## Calendar model (src/generate/time.py, generate_dim_time) -/

/-- Gregorian leap-year rule, as implemented by pandas Timestamps. -/
def isLeap (y : Nat) : Bool := (y % 4 == 0 && y % 100 != 0) || y % 400 == 0

/-- Number of days of month m in year y (pandas calendar semantics). -/
def daysInMonth (y m : Nat) : Nat :=
  if m = 2 then (if isLeap y then 29 else 28)
  else if m = 4 ∨ m = 6 ∨ m = 9 ∨ m = 11 then 30
  else 31

/-- A calendar date, the date component of a pandas Timestamp. -/
structure Date where
  year : Nat
  month : Nat
  day : Nat
deriving DecidableEq, Repr

/-- The date is a real proleptic-Gregorian calendar day. -/
def ValidDate (d : Date) : Prop :=
  1 ≤ d.year ∧ 1 ≤ d.month ∧ d.month ≤ 12 ∧ 1 ≤ d.day ∧ d.day ≤ daysInMonth d.year d.month

instance (d : Date) : Decidable (ValidDate d) := by unfold ValidDate; infer_instance

/-- Chronological strict order on dates (how pandas compares Timestamps). -/
def dateLt (a b : Date) : Prop :=
  a.year < b.year ∨
    (a.year = b.year ∧ (a.month < b.month ∨ (a.month = b.month ∧ a.day < b.day)))

instance (a b : Date) : Decidable (dateLt a b) := by unfold dateLt; infer_instance

/-- Chronological order on dates. -/
def dateLe (a b : Date) : Prop := dateLt a b ∨ a = b

instance (a b : Date) : Decidable (dateLe a b) := by unfold dateLe; infer_instance

/-- The calendar day after d (pandas daily date arithmetic). -/
def nextDay (d : Date) : Date :=
  if d.day < daysInMonth d.year d.month then ⟨d.year, d.month, d.day + 1⟩
  else if d.month < 12 then ⟨d.year, d.month + 1, 1⟩
  else ⟨d.year + 1, 1, 1⟩

/-- src/utils.py date_key: the YYYYMMDD integer key of a timestamp. -/
def date_key (d : Date) : Nat := d.year * 10000 + d.month * 100 + d.day

/-- Leap days among the years 1 .. y-1. -/
def leapsBefore (y : Nat) : Nat := (y - 1) / 4 + (y - 1) / 400 - (y - 1) / 100

/-- Days of year y that precede the first of month m. -/
def daysBeforeMonth (y m : Nat) : Nat :=
  (match m with
   | 1 => 0 | 2 => 31 | 3 => 59 | 4 => 90 | 5 => 120 | 6 => 151 | 7 => 181
   | 8 => 212 | 9 => 243 | 10 => 273 | 11 => 304 | 12 => 334 | _ => 0)
  + (if 3 ≤ m ∧ isLeap y then 1 else 0)

/-- Rata-die day number of a date: the count of days from 0001-01-01
(inclusive) to the date, the integer a pandas Timestamp difference in days
denotes. -/
def toOrdinal (d : Date) : Nat :=
  365 * (d.year - 1) + leapsBefore d.year + daysBeforeMonth d.year d.month + d.day

/-- Quarter of a month, as pandas dt.quarter computes it. -/
def quarterOfMonth (m : Nat) : Nat := (m - 1) / 3 + 1

/-- One row of dim_time (column order of generate_dim_time). -/
structure CalendarDay where
  date_key : Nat
  date : Date
  day : Nat
  month : Nat
  quarter : Nat
  year : Nat
  weekday : Nat
  is_month_end : Bool
deriving DecidableEq, Repr

/-- The dim_time row of one date: every column of generate_dim_time.
weekday is Monday=0 (pandas dt.weekday); is_month_end is pandas
dt.is_month_end, true exactly when the day is the last calendar day of its
month. -/
def toCalendarDay (d : Date) : CalendarDay :=
  { date_key := date_key d
    date := d
    day := d.day
    month := d.month
    quarter := quarterOfMonth d.month
    year := d.year
    weekday := (toOrdinal d + 6) % 7
    is_month_end := d.day == daysInMonth d.year d.month }

/-- n consecutive calendar days starting at d. -/
def dateRangeAux : Date → Nat → List Date
  | _, 0 => []
  | d, n + 1 => d :: dateRangeAux (nextDay d) n

/-- Row count of pd.date_range(s, e, freq="D"): the days from s to e
inclusive (0 when e is before s). -/
def numDaysInclusive (s e : Date) : Nat := toOrdinal e + 1 - toOrdinal s

/-- src/generate/time.py generate_dim_time: the daily date spine from the
start date to the end date, one CalendarDay row per day. -/
def generate_dim_time (s e : Date) : List CalendarDay :=
  (dateRangeAux s (numDaysInclusive s e)).map toCalendarDay

/-! ### Calendar lemmas -/

theorem daysInMonth_le_31 (y m : Nat) : daysInMonth y m ≤ 31 := by
  unfold daysInMonth
  split
  · split <;> omega
  · split <;> omega

theorem daysInMonth_pos (y m : Nat) : 1 ≤ daysInMonth y m := by
  unfold daysInMonth
  split
  · split <;> omega
  · split <;> omega

theorem date_key_lt_nextDay (d : Date) (hd : ValidDate d) :
    date_key d < date_key (nextDay d) := by
  obtain ⟨h1, h2, h3, h4, h5⟩ := hd
  have h31 := daysInMonth_le_31 d.year d.month
  unfold nextDay date_key
  split
  · dsimp only
    omega
  · split <;> dsimp only <;> omega

theorem validDate_nextDay (d : Date) (hd : ValidDate d) : ValidDate (nextDay d) := by
  obtain ⟨h1, h2, h3, h4, h5⟩ := hd
  have hp2 := daysInMonth_pos d.year (d.month + 1)
  have hp3 := daysInMonth_pos (d.year + 1) 1
  unfold nextDay ValidDate
  split
  · dsimp only
    omega
  · split <;> dsimp only <;> omega

theorem dateRangeAux_length (d : Date) (n : Nat) : (dateRangeAux d n).length = n := by
  induction n generalizing d with
  | zero => rfl
  | succ k ih => simp [dateRangeAux, ih]

theorem dateRangeAux_valid (n : Nat) (d : Date) (hd : ValidDate d) :
    ∀ x ∈ dateRangeAux d n, ValidDate x := by
  induction n generalizing d with
  | zero => intro x hx; simp [dateRangeAux] at hx
  | succ k ih =>
    intro x hx
    simp only [dateRangeAux, List.mem_cons] at hx
    rcases hx with rfl | hx
    · exact hd
    · exact ih (nextDay d) (validDate_nextDay d hd) x hx

theorem dateRangeAux_chain (n : Nat) (d : Date) :
    (dateRangeAux d n).Chain' (fun a b => b = nextDay a) := by
  induction n generalizing d with
  | zero => simp [dateRangeAux]
  | succ k ih =>
    rw [dateRangeAux, List.chain'_cons']
    refine ⟨?_, ih (nextDay d)⟩
    intro b hb
    cases k with
    | zero => simp [dateRangeAux] at hb
    | succ j =>
      simp only [dateRangeAux, List.head?_cons, Option.mem_def, Option.some.injEq] at hb
      exact hb.symm

theorem isLeap_iff (y : Nat) :
    isLeap y = true ↔ ((y % 4 = 0 ∧ y % 100 ≠ 0) ∨ y % 400 = 0) := by
  simp [isLeap]

theorem daysBeforeMonth_succ (y m : Nat) (h1 : 1 ≤ m) (h2 : m ≤ 11) :
    daysBeforeMonth y (m + 1) = daysBeforeMonth y m + daysInMonth y m := by
  interval_cases m <;> cases hy : isLeap y <;>
    simp [daysBeforeMonth, daysInMonth, hy]

theorem leapsBefore_succ (y : Nat) (hy : 1 ≤ y) :
    leapsBefore (y + 1) = leapsBefore y + (if isLeap y then 1 else 0) := by
  unfold leapsBefore
  split
  · rename_i h
    rw [isLeap_iff] at h
    omega
  · rename_i h
    rw [isLeap_iff] at h
    push_neg at h
    omega

theorem daysInMonth_12 (y : Nat) : daysInMonth y 12 = 31 := by
  simp [daysInMonth]

theorem daysBeforeMonth_1 (y : Nat) : daysBeforeMonth y 1 = 0 := by
  simp [daysBeforeMonth]

theorem daysBeforeMonth_12 (y : Nat) :
    daysBeforeMonth y 12 = 334 + (if isLeap y then 1 else 0) := by
  simp [daysBeforeMonth]

theorem toOrdinal_nextDay (d : Date) (hd : ValidDate d) :
    toOrdinal (nextDay d) = toOrdinal d + 1 := by
  obtain ⟨h1, h2, h3, h4, h5⟩ := hd
  by_cases hday : d.day < daysInMonth d.year d.month
  · have hnd : nextDay d = ⟨d.year, d.month, d.day + 1⟩ := by
      unfold nextDay; rw [if_pos hday]
    rw [hnd]
    unfold toOrdinal
    dsimp only
    omega
  · by_cases hm : d.month < 12
    · have hnd : nextDay d = ⟨d.year, d.month + 1, 1⟩ := by
        unfold nextDay; rw [if_neg hday, if_pos hm]
      rw [hnd]
      have hsucc := daysBeforeMonth_succ d.year d.month h2 (by omega)
      unfold toOrdinal
      dsimp only
      omega
    · have hnd : nextDay d = ⟨d.year + 1, 1, 1⟩ := by
        unfold nextDay; rw [if_neg hday, if_neg hm]
      rw [hnd]
      have hm12 : d.month = 12 := by omega
      have h312 := daysInMonth_12 d.year
      have h31 : d.day = 31 := by rw [hm12] at hday h5; omega
      have hls := leapsBefore_succ d.year h1
      have hdb12 := daysBeforeMonth_12 d.year
      have hdb1 := daysBeforeMonth_1 (d.year + 1)
      unfold toOrdinal
      dsimp only
      rw [hm12]
      cases hl : isLeap d.year <;> simp [hl] at hls hdb12 <;> omega

theorem dateRangeAux_keys_chain (n : Nat) (d : Date) (hd : ValidDate d) :
    ((dateRangeAux d n).map (fun x => date_key x)).Chain' (· < ·) := by
  induction n generalizing d with
  | zero => simp [dateRangeAux]
  | succ k ih =>
    rw [dateRangeAux, List.map_cons, List.chain'_cons']
    refine ⟨?_, ih (nextDay d) (validDate_nextDay d hd)⟩
    intro b hb
    cases k with
    | zero => simp [dateRangeAux] at hb
    | succ j =>
      simp only [dateRangeAux, List.map_cons, List.head?_cons, Option.mem_def,
        Option.some.injEq] at hb
      rw [← hb]
      exact date_key_lt_nextDay d hd

theorem generate_dim_time_rows (s e : Date) :
    ∀ r ∈ generate_dim_time s e, r = toCalendarDay r.date := by
  intro r hr
  simp only [generate_dim_time, List.mem_map] at hr
  obtain ⟨d, _, rfl⟩ := hr
  rfl

theorem generate_dim_time_valid (s e : Date) (hs : ValidDate s) :
    ∀ r ∈ generate_dim_time s e, ValidDate r.date := by
  intro r hr
  simp only [generate_dim_time, List.mem_map] at hr
  obtain ⟨d, hd, rfl⟩ := hr
  exact dateRangeAux_valid _ s hs d hd

theorem generate_dim_time_keys_chain (s e : Date) (hs : ValidDate s) :
    ((generate_dim_time s e).map (fun r => r.date_key)).Chain' (· < ·) := by
  have h := dateRangeAux_keys_chain (numDaysInclusive s e) s hs
  simpa [generate_dim_time, List.map_map, Function.comp, toCalendarDay] using h

/-- C2: For every start/end date pair with start ≤ end, the Calendar Builder
(generate_dim_time) returns exactly (end − start).days + 1 rows, one per day
with no gaps (the first row is the start date and each later row is the next
calendar day of its predecessor), with date_key strictly increasing across
rows, and with is_month_end true exactly on those days that are the last
calendar day of their month. -/
theorem C2_calendar_completeness (s e : Date) (hs : ValidDate s)
    (hse : toOrdinal s ≤ toOrdinal e) :
    (generate_dim_time s e).length = (toOrdinal e - toOrdinal s) + 1 ∧
    (generate_dim_time s e).head? = some (toCalendarDay s) ∧
    (generate_dim_time s e).Chain' (fun a b => b.date = nextDay a.date) ∧
    ((generate_dim_time s e).map (fun r => r.date_key)).Chain' (· < ·) ∧
    ∀ r ∈ generate_dim_time s e,
      (r.is_month_end = true ↔ r.day = daysInMonth r.year r.month) := by
  refine ⟨?_, ?_, ?_, generate_dim_time_keys_chain s e hs, ?_⟩
  · simp only [generate_dim_time, List.length_map, dateRangeAux_length,
      numDaysInclusive]
    omega
  · have hnum : numDaysInclusive s e = (toOrdinal e - toOrdinal s) + 1 := by
      unfold numDaysInclusive; omega
    simp [generate_dim_time, hnum, dateRangeAux]
  · have h := dateRangeAux_chain (numDaysInclusive s e) s
    rw [generate_dim_time]
    rw [List.chain'_map]
    exact h.imp (fun a b hab => by simp [toCalendarDay, hab])
  · intro r hr
    have := generate_dim_time_rows s e r hr
    rw [this]
    simp [toCalendarDay]

/-- Witness for C2 at a concrete leap-February range: 2020-02-28 .. 2020-03-01
(three rows; 2020-02-29 is the month end). -/
theorem C2_calendar_completeness_witness :
    ValidDate ⟨2020, 2, 28⟩ ∧ toOrdinal ⟨2020, 2, 28⟩ ≤ toOrdinal ⟨2020, 3, 1⟩ ∧
    ((generate_dim_time ⟨2020, 2, 28⟩ ⟨2020, 3, 1⟩).length =
        (toOrdinal ⟨2020, 3, 1⟩ - toOrdinal ⟨2020, 2, 28⟩) + 1 ∧
      (generate_dim_time ⟨2020, 2, 28⟩ ⟨2020, 3, 1⟩).head? =
        some (toCalendarDay ⟨2020, 2, 28⟩) ∧
      (generate_dim_time ⟨2020, 2, 28⟩ ⟨2020, 3, 1⟩).Chain'
        (fun a b => b.date = nextDay a.date) ∧
      ((generate_dim_time ⟨2020, 2, 28⟩ ⟨2020, 3, 1⟩).map
          (fun r => r.date_key)).Chain' (· < ·) ∧
      ∀ r ∈ generate_dim_time ⟨2020, 2, 28⟩ ⟨2020, 3, 1⟩,
        (r.is_month_end = true ↔ r.day = daysInMonth r.year r.month)) :=
  ⟨by decide, by decide,
    C2_calendar_completeness ⟨2020, 2, 28⟩ ⟨2020, 3, 1⟩ (by decide) (by decide)⟩

/-! ## Customer lifecycle simulator (src/generate/customers.py) -/

inductive Segment
  | Retail | SME | Corporate
deriving DecidableEq, Repr

inductive Region
  | North | South | West | East | Central | International
deriving DecidableEq, Repr

/-- One row of dim_customer (column order of generate_dim_customer). -/
structure Customer where
  customer_id : Nat
  segment : Segment
  region : Region
  risk_score : ℚ
  acquisition_date : Date
  churn_date : Option Date
  is_active : Bool
deriving DecidableEq, Repr

/-- pandas min of two dates. -/
def dateMin (a b : Date) : Date := if dateLt a b then a else b

/-- pandas max of two dates. -/
def dateMax (a b : Date) : Date := if dateLt a b then b else a

/-- pandas Series.min over a date column.  On an empty column pandas yields
NaT; the placeholder ⟨1,1,1⟩ stands for that (the pipeline only reaches it
with an empty calendar, where no claim inspects the value). -/
def listMinD : List Date → Date
  | [] => ⟨1, 1, 1⟩
  | a :: t => t.foldl dateMin a

/-- pandas Series.max over a date column (placeholder ⟨1,1,1⟩ for NaT on an
empty column, as for listMinD). -/
def listMaxD : List Date → Date
  | [] => ⟨1, 1, 1⟩
  | a :: t => t.foldl dateMax a

/-- pandas DateOffset(years=k): add k years, clipping the day into the target
month (Feb 29 + years landing on a non-leap year becomes Feb 28). -/
def addYears (d : Date) (k : Nat) : Date :=
  ⟨d.year + k, d.month, min d.day (daysInMonth (d.year + k) d.month)⟩

/-- Add n days to a date. -/
def addDays (d : Date) : Nat → Date
  | 0 => d
  | n + 1 => addDays (nextDay d) n

/-- np.clip on rationals. -/
def clampQ (x lo hi : ℚ) : ℚ := max lo (min x hi)

/-- The random draws generate_dim_customer consumes, as oracles: acqU i is the
uniform [0,1) draw of rng.random(NUM_CUSTOMERS) for customer index i; churnU i
y and churnMonth i y are the Bernoulli uniform and the rng.integers(1,13)
month draw of customer i in calendar year y; segU, regU, riskN are the
segment-choice uniform, region-choice uniform and normal(600,100) draw per
customer. -/
structure CustomerDraws where
  acqU : Nat → ℚ
  churnU : Nat → Nat → ℚ
  churnMonth : Nat → Nat → Nat
  segU : Nat → ℚ
  regU : Nat → ℚ
  riskN : Nat → ℚ

/-- rng.choice(segments, p=[0.6, 0.3, 0.1]) as a cumulative-threshold lookup
of one uniform draw. -/
def segmentOfDraw (u : ℚ) : Segment :=
  if u < 0.6 then .Retail else if u < 0.9 then .SME else .Corporate

/-- rng.choice(regions, p=[0.2, 0.25, 0.2, 0.15, 0.15, 0.05]) as a
cumulative-threshold lookup of one uniform draw. -/
def regionOfDraw (u : ℚ) : Region :=
  if u < 0.2 then .North else if u < 0.45 then .South else if u < 0.65 then .West
  else if u < 0.8 then .East else if u < 0.95 then .Central else .International

/-- The churn while-loop of generate_dim_customer: starting at year y with the
given fuel (end year + 1 - start year), run one Bernoulli trial per year; on
the first success pick the 1st of a uniformly drawn month of that year as the
churn candidate and stop, discarding it unless it is strictly after the
acquisition date; on no success the customer never churns. -/
def churnScan (p : ℚ) (u : Nat → ℚ) (mo : Nat → Nat) (acq : Date) :
    Nat → Nat → Option Date
  | _, 0 => none
  | y, fuel + 1 =>
    if u y < p then
      (if dateLt acq ⟨y, mo y, 1⟩ then some ⟨y, mo y, 1⟩ else none)
    else churnScan p u mo acq (y + 1) fuel

/-- The acquisition date of one customer: start + (start+3y − start)·u,
floored to a day — uniformly within the first 3 years of the calendar span,
whatever the span is. -/
def acquisitionOf (start : Date) (u : ℚ) : Date :=
  addDays start
    (Nat.floor (((toOrdinal (addYears start 3) - toOrdinal start : Nat) : ℚ) * u))

/-- The churn date of one customer: the churn while-loop started at the
acquisition year, then cleared when the computed date exceeds the dataset end
date. -/
def churnOf (endD : Date) (p : ℚ) (u : Nat → ℚ) (mo : Nat → Nat) (acq : Date) :
    Option Date :=
  match churnScan p u mo acq acq.year (endD.year + 1 - acq.year) with
  | some c => if dateLt endD c then none else some c
  | none => none

/-- One row of dim_customer, for customer index i (customer_id = i+1). -/
def mkCustomer (start endD : Date) (p : ℚ) (cd : CustomerDraws) (i : Nat) :
    Customer :=
  let acq := acquisitionOf start (cd.acqU i)
  let churn := churnOf endD p (cd.churnU i) (cd.churnMonth i) acq
  { customer_id := i + 1
    segment := segmentOfDraw (cd.segU i)
    region := regionOfDraw (cd.regU i)
    risk_score := clampQ (cd.riskN i) 300 850
    acquisition_date := acq
    churn_date := churn
    is_active := churn.isNone }

/-- src/generate/customers.py generate_dim_customer: acquisition uniformly in
the first 3 years of the calendar span (floored to a day), churn by
year-by-year Bernoulli trials capped at the dataset end date, segment, region
and clipped risk score, and the derived is_active flag. -/
def generate_dim_customer (dim_time : List CalendarDay) (numCustomers : Nat)
    (annualChurnRate : ℚ) (cd : CustomerDraws) : List Customer :=
  let start := listMinD (dim_time.map (fun r => r.date))
  let endD := listMaxD (dim_time.map (fun r => r.date))
  (List.range numCustomers).map (mkCustomer start endD annualChurnRate cd)

/-! ### Customer lemmas -/

theorem churnScan_some_gt (p : ℚ) (u : Nat → ℚ) (mo : Nat → Nat) (acq : Date) :
    ∀ fuel y c, churnScan p u mo acq y fuel = some c → dateLt acq c := by
  intro fuel
  induction fuel with
  | zero => intro y c h; simp [churnScan] at h
  | succ k ih =>
    intro y c h
    rw [churnScan] at h
    split at h
    · split at h
      · rename_i hlt
        obtain rfl : c = ⟨y, mo y, 1⟩ := by
          simpa using h.symm
        exact hlt
      · simp at h
    · exact ih (y + 1) c h

theorem not_dateLt_to_dateLe (a b : Date) (h : ¬ dateLt a b) : dateLe b a := by
  obtain ⟨ay, am, ad⟩ := a
  obtain ⟨by1, bm, bd⟩ := b
  simp only [dateLt, dateLe, Date.mk.injEq] at *
  omega

/-- C1: every customer row produced by generate_dim_customer has
is_active true iff churn_date is absent, and a present churn_date is strictly
after the acquisition date and at most the dataset end date — for every
possible random stream. -/
theorem C1_customer_invariant (dim_time : List CalendarDay) (n : Nat) (p : ℚ)
    (cd : CustomerDraws) (c : Customer)
    (hc : c ∈ generate_dim_customer dim_time n p cd) :
    (c.is_active = true ↔ c.churn_date = none) ∧
    ∀ ch, c.churn_date = some ch →
      dateLt c.acquisition_date ch ∧
        dateLe ch (listMaxD (dim_time.map (fun r => r.date))) := by
  simp only [generate_dim_customer, List.mem_map, List.mem_range] at hc
  obtain ⟨i, _, rfl⟩ := hc
  unfold mkCustomer
  dsimp only
  constructor
  · exact Option.isNone_iff_eq_none
  · intro ch hch
    unfold churnOf at hch
    split at hch
    · rename_i c0 hc0
      split at hch
      · simp at hch
      · rename_i hcap
        obtain rfl : ch = c0 := by simpa using hch.symm
        exact ⟨churnScan_some_gt _ _ _ _ _ _ _ hc0,
          not_dateLt_to_dateLe _ _ hcap⟩
    · simp at hch

/-- An all-zero draw record (every uniform 0, every month draw 1). -/
def zeroCustomerDraws : CustomerDraws :=
  ⟨fun _ => 0, fun _ _ => 0, fun _ _ => 1, fun _ => 0, fun _ => 0, fun _ => 0⟩

/-- The single customer generated from zeroCustomerDraws on the Jan 2020
three-day calendar. -/
def c1Customer : Customer :=
  ⟨1, .Retail, .North, 300, ⟨2020, 1, 1⟩, none, true⟩

theorem acquisitionOf_zero : acquisitionOf ⟨2020, 1, 1⟩ 0 = ⟨2020, 1, 1⟩ := by
  unfold acquisitionOf
  rw [mul_zero, Nat.floor_zero]
  rfl

theorem churnOf_c1 :
    churnOf ⟨2020, 1, 3⟩ 1 (fun _ => 0) (fun _ => 1) ⟨2020, 1, 1⟩ = none := by
  unfold churnOf
  have h : churnScan 1 (fun _ => 0) (fun _ => 1) ⟨2020, 1, 1⟩ 2020 1 = none := by
    rw [show (1 : Nat) = 0 + 1 from rfl, churnScan]
    rw [if_pos (by norm_num), if_neg (by decide)]
  simp [h]

theorem mkCustomer_c1 :
    mkCustomer ⟨2020, 1, 1⟩ ⟨2020, 1, 3⟩ 1 zeroCustomerDraws 0 = c1Customer := by
  unfold mkCustomer zeroCustomerDraws
  dsimp only
  rw [acquisitionOf_zero]
  rw [churnOf_c1]
  unfold c1Customer segmentOfDraw regionOfDraw clampQ
  norm_num

theorem generate_dim_customer_c1 :
    generate_dim_customer (generate_dim_time ⟨2020, 1, 1⟩ ⟨2020, 1, 3⟩) 1 1
      zeroCustomerDraws = [c1Customer] := by
  have hmin :
      listMinD ((generate_dim_time ⟨2020, 1, 1⟩ ⟨2020, 1, 3⟩).map (fun r => r.date))
        = ⟨2020, 1, 1⟩ := by decide
  have hmax :
      listMaxD ((generate_dim_time ⟨2020, 1, 1⟩ ⟨2020, 1, 3⟩).map (fun r => r.date))
        = ⟨2020, 1, 3⟩ := by decide
  simp only [generate_dim_customer]
  rw [hmin, hmax, show List.range 1 = [0] from rfl, List.map_cons, List.map_nil,
    mkCustomer_c1]

/-- Witness for C1: the concrete customer generated from the all-zero draw
record on the 2020-01-01 .. 2020-01-03 calendar satisfies the invariant. -/
theorem C1_customer_invariant_witness :
    c1Customer ∈ generate_dim_customer (generate_dim_time ⟨2020, 1, 1⟩ ⟨2020, 1, 3⟩)
      1 1 zeroCustomerDraws ∧
    (c1Customer.is_active = true ↔ c1Customer.churn_date = none) := by
  have hm : c1Customer ∈ generate_dim_customer
      (generate_dim_time ⟨2020, 1, 1⟩ ⟨2020, 1, 3⟩) 1 1 zeroCustomerDraws := by
    rw [generate_dim_customer_c1]
    exact List.mem_singleton.mpr rfl
  exact ⟨hm, (C1_customer_invariant _ _ _ _ _ hm).1⟩

/-! ## Reference dimension builders (src/generate/products.py, accounts.py,
cost_centers.py) -/

inductive Category
  | Subscription | Service | Loan | Advisory
deriving DecidableEq, Repr

/-- One row of dim_product (column order of generate_dim_product).
direct_cost_ratio is the product's direct-cost-to-revenue fraction. -/
structure Product where
  product_id : Nat
  product_name : String
  category : Category
  base_price : ℚ
  direct_cost_ratio : ℚ
deriving DecidableEq, Repr

/-- The random draws generate_dim_product consumes per product index:
the category-choice uniform, the uniform of the category price range, and the
realized value of the category-specific rng.normal draw (the category mean
and sigma only shape the distribution, whose support is all reals either
way). -/
structure ProductDraws where
  catU : Nat → ℚ
  priceU : Nat → ℚ
  dcrN : Nat → ℚ

/-- rng.choice(categories, p=[0.40, 0.30, 0.20, 0.10]). -/
def categoryOfDraw (u : ℚ) : Category :=
  if u < 0.4 then .Subscription else if u < 0.7 then .Service
  else if u < 0.9 then .Loan else .Advisory

/-- src/generate/products.py generate_dim_product: category draw, a
category-specific uniform price range, and a direct-cost ratio centered at
1 − base margin clipped into a category-specific band. -/
def generate_dim_product (numProducts : Nat) (baseMargin : ℚ)
    (pd : ProductDraws) : List Product :=
  (List.range numProducts).map (fun i =>
    let cat := categoryOfDraw (pd.catU i)
    let price : ℚ :=
      match cat with
      | .Subscription => 50 + (200 - 50) * pd.priceU i
      | .Service => 100 + (400 - 100) * pd.priceU i
      | .Loan => 300 + (800 - 300) * pd.priceU i
      | .Advisory => 150 + (600 - 150) * pd.priceU i
    let dcr : ℚ :=
      match cat with
      | .Subscription => clampQ (1 - baseMargin + pd.dcrN i) 0.25 0.70
      | .Service => clampQ (1 - baseMargin + pd.dcrN i) 0.30 0.75
      | .Loan => clampQ (1 - baseMargin + pd.dcrN i) 0.20 0.65
      | .Advisory => clampQ (1 - baseMargin + pd.dcrN i) 0.25 0.72
    { product_id := i + 1
      product_name := "Product " ++ toString (i + 1)
      category := cat
      base_price := price
      direct_cost_ratio := dcr })

/-- One row of dim_account. -/
structure Account where
  account_id : Nat
  account_name : String
  account_type : String
  account_group : String
  reporting_line : String
deriving DecidableEq, Repr

/-- src/generate/accounts.py generate_dim_account: the fixed 8-row chart of
accounts (3 revenue, 1 COGS, 4 OPEX). -/
def generate_dim_account : List Account :=
  [⟨4000, "Revenue - Subscription", "Revenue", "Operating Revenue", "Revenue"⟩,
   ⟨4001, "Revenue - Service", "Revenue", "Operating Revenue", "Revenue"⟩,
   ⟨4002, "Revenue - Other", "Revenue", "Operating Revenue", "Revenue"⟩,
   ⟨5000, "Cost of Goods Sold", "COGS", "Direct Costs", "Gross Profit"⟩,
   ⟨6000, "Sales & Marketing", "OPEX", "Indirect Costs", "Operating Profit"⟩,
   ⟨6100, "Operations", "OPEX", "Indirect Costs", "Operating Profit"⟩,
   ⟨6200, "IT & Infrastructure", "OPEX", "Indirect Costs", "Operating Profit"⟩,
   ⟨6300, "HQ & Admin", "OPEX", "Indirect Costs", "Operating Profit"⟩]

/-- One row of dim_cost_center. -/
structure CostCenter where
  cost_center_id : Nat
  department : String
  country : String
  manager : String
deriving DecidableEq, Repr

def baseDepartments : List String :=
  ["Sales", "Marketing", "Operations", "IT", "HR", "HQ"]

/-- src/generate/cost_centers.py generate_dim_cost_center: the first n of the
six named departments, extended with DeptK names for K = 7..n when n > 6; all
in country DE with a manager name derived from the department. -/
def generate_dim_cost_center (n : Nat) : List CostCenter :=
  let departments :=
    if n ≤ 6 then baseDepartments.take n
    else baseDepartments ++ (List.range (n - 6)).map (fun k => "Dept" ++ toString (7 + k))
  departments.enum.map (fun p => ⟨p.1 + 1, p.2, "DE", "Manager " ++ p.2⟩)

/-! ## Transaction sampler (src/generate/transactions.py,
generate_fact_transactions) -/

inductive Channel
  | Online | Branch | Partner
deriving DecidableEq, Repr

/-- One row of fact_transactions (final column order of
generate_fact_transactions). -/
structure Transaction where
  transaction_id : Nat
  date_key : Nat
  customer_id : Nat
  product_id : Nat
  quantity : Nat
  net_revenue : ℚ
  direct_cost : ℚ
  channel : Channel
deriving DecidableEq, Repr

/-- The documented Transaction column set, in documented order. -/
def transactionColumns : List String :=
  ["transaction_id", "date_key", "customer_id", "product_id", "quantity",
   "net_revenue", "direct_cost", "channel"]

/-- fact_transactions as a table: its column names and its rows. -/
structure TransactionTable where
  columns : List String
  rows : List Transaction
deriving DecidableEq, Repr

/-- One record of the tx_records list (tuple order of the Python append). -/
structure TxRec where
  customer_id : Nat
  date_key : Nat
  product_id : Nat
  quantity : Nat
  net_revenue : ℚ
  direct_cost : ℚ
  channel : Channel
deriving DecidableEq, Repr

/-- The random draws generate_fact_transactions consumes: the spend-tier
uniform per customer index; the Poisson transaction-count draw per (customer
index, active-month index); and per (customer index, month index, transaction
index) the uniform element-index draws for the date and the product, the
Poisson(1.1) quantity draw, the realized lognormal(0, 0.15) price noise, and
the channel uniform. -/
structure TxDraws where
  spendTierU : Nat → ℚ
  nTx : Nat → Nat → Nat
  dateU : Nat → Nat → Nat → Nat
  prodU : Nat → Nat → Nat → Nat
  qtyP : Nat → Nat → Nat → Nat
  noiseL : Nat → Nat → Nat → ℚ
  chanU : Nat → Nat → Nat → ℚ

/-- rng.choice([0.5, 1.0, 2.0, 4.0], p=[0.25, 0.45, 0.25, 0.05]). -/
def spendTierOfDraw (u : ℚ) : ℚ :=
  if u < 0.25 then 0.5 else if u < 0.7 then 1 else if u < 0.95 then 2 else 4

/-- Baseline monthly transaction rate per segment. -/
def segLambda : Segment → ℚ
  | .Retail => 0.4 | .SME => 0.8 | .Corporate => 1.2

/-- Segment revenue multipliers. -/
def segRevMult : Segment → ℚ
  | .Retail => 1 | .SME => 1.2 | .Corporate => 1.5

/-- Segment cost multipliers. -/
def segCostMult : Segment → ℚ
  | .Retail => 1 | .SME => 0.95 | .Corporate => 0.88

/-- rng.choice(["Online", "Branch", "Partner"], p=[0.6, 0.25, 0.15]). -/
def channelOfDraw (u : ℚ) : Channel :=
  if u < 0.6 then .Online else if u < 0.85 then .Branch else .Partner

/-- The linear index of a (year, month) pandas monthly period. -/
def monthIdx (ym : Nat × Nat) : Nat := ym.1 * 12 + (ym.2 - 1)

/-- pd.period_range(a, b, freq="M"): the months from a to b inclusive, empty
when b is before a. -/
def periodRange (a b : Nat × Nat) : List (Nat × Nat) :=
  (List.range (monthIdx b + 1 - monthIdx a)).map
    (fun k => ((monthIdx a + k) / 12, (monthIdx a + k) % 12 + 1))

/-- The date_index lookup of generate_fact_transactions: the date_keys of the
dim_time rows of month (y, m), in calendar order.  The month is absent from
the Python dict exactly when this list is empty. -/
def monthDates (dt : List CalendarDay) (y m : Nat) : List Nat :=
  (dt.filter (fun r => r.year == y && r.month == m)).map (fun r => r.date_key)

def defaultProduct : Product := ⟨0, "", .Advisory, 0, 0⟩

/-- The transactions of one active month of one customer.  dates/products are
picked by a uniform index draw (the modulo keeps the lookup total; the code
only reaches it with a nonempty date array, and pipeline product ids 1..N make
the id lookup total as well).  The Poisson mean
max(segLambda·tier, 0.05) only parameterizes the count distribution, whose
support is all of ℕ; the drawn count is the nTx oracle value, and a zero draw
skips the month. -/
def monthTxRecs (dt : List CalendarDay) (products : List Product)
    (seasonality shocks : Nat → ℚ) (td : TxDraws) (tier : ℚ) (ci : Nat)
    (c : Customer) (mi : Nat) (ym : Nat × Nat) : List TxRec :=
  let dates := monthDates dt ym.1 ym.2
  if dates.isEmpty then []
  else
    let seas := seasonality (quarterOfMonth ym.2)
    let shock := shocks ym.1
    (List.range (td.nTx ci mi)).map (fun j =>
      let dk := dates.getD (td.dateU ci mi j % dates.length) 0
      let ids := products.map (fun p => p.product_id)
      let pid := ids.getD (td.prodU ci mi j % ids.length) 0
      let p := (products.find? (fun q => q.product_id == pid)).getD defaultProduct
      let qty := max 1 (td.qtyP ci mi j)
      let noise := td.noiseL ci mi j
      let unit := p.base_price * segRevMult c.segment * tier * seas * shock * noise
      let revenue := unit * (qty : ℚ)
      let cost := revenue * (p.direct_cost_ratio * segCostMult c.segment)
      { customer_id := c.customer_id
        date_key := dk
        product_id := pid
        quantity := qty
        net_revenue := revenue
        direct_cost := cost
        channel := channelOfDraw (td.chanU ci mi j) })

/-- The end of a customer's active range: the churn date, or the dataset end
date when the customer never churned. -/
def churnEffOf (dt : List CalendarDay) (c : Customer) : Date :=
  match c.churn_date with
  | some d => d
  | none => listMaxD (dt.map (fun r => r.date))

/-- The tx_records contribution of one customer: iterate the months from the
acquisition month through the churn month (dataset-end month if never
churned), skipping months absent from the calendar. -/
def perCustomerTx (dt : List CalendarDay) (products : List Product)
    (seasonality shocks : Nat → ℚ) (td : TxDraws) (ci : Nat) (c : Customer) :
    List TxRec :=
  let churnEff : Date := churnEffOf dt c
  let months := periodRange (c.acquisition_date.year, c.acquisition_date.month)
    (churnEff.year, churnEff.month)
  let tier := spendTierOfDraw (td.spendTierU ci)
  months.enum.flatMap (fun p => monthTxRecs dt products seasonality shocks td tier ci c p.1 p.2)

/-- src/generate/transactions.py generate_fact_transactions: all customers in
row order, transaction_id assigned sequentially over the combined record list,
and the fixed 8-column schema (identical for zero records — pandas builds the
empty frame from the same column list). -/
def generate_fact_transactions (dim_customer : List Customer)
    (dim_product : List Product) (dt : List CalendarDay)
    (seasonality shocks : Nat → ℚ) (td : TxDraws) : TransactionTable :=
  let recs := dim_customer.enum.flatMap
    (fun p => perCustomerTx dt dim_product seasonality shocks td p.1 p.2)
  { columns := transactionColumns
    rows := recs.enum.map (fun p =>
      { transaction_id := p.1 + 1
        date_key := p.2.date_key
        customer_id := p.2.customer_id
        product_id := p.2.product_id
        quantity := p.2.quantity
        net_revenue := p.2.net_revenue
        direct_cost := p.2.direct_cost
        channel := p.2.channel }) }

/-! ### Transaction sampler: schema stability (C6) -/

/-- An all-zero transaction draw record: in particular every Poisson
transaction-count draw is zero. -/
def zeroTxDraws : TxDraws :=
  ⟨fun _ => 0, fun _ _ => 0, fun _ _ _ => 0, fun _ _ _ => 0, fun _ _ _ => 0,
   fun _ _ _ => 0, fun _ _ _ => 0⟩

theorem monthTxRecs_of_zero_draw (dt : List CalendarDay) (dp : List Product)
    (seas shocks : Nat → ℚ) (td : TxDraws) (tier : ℚ) (ci : Nat) (c : Customer)
    (mi : Nat) (ym : Nat × Nat) (hz : td.nTx ci mi = 0) :
    monthTxRecs dt dp seas shocks td tier ci c mi ym = [] := by
  unfold monthTxRecs
  dsimp only
  split
  · rfl
  · rw [hz]
    rfl

/-- C6 (amended): when the full simulation yields zero transactions — here
realized as every Poisson transaction-count draw being zero, which covers any
zero-transaction run since months are skipped exactly on a zero draw — the
Transaction Sampler returns a valid zero-row table (not an error) whose column
set is exactly the eight documented columns of the Transaction schema, in the
documented order. -/
theorem C6_empty_table_schema (dc : List Customer) (dp : List Product)
    (dt : List CalendarDay) (seas shocks : Nat → ℚ) (td : TxDraws)
    (hz : ∀ ci mi, td.nTx ci mi = 0) :
    (generate_fact_transactions dc dp dt seas shocks td).rows = [] ∧
    (generate_fact_transactions dc dp dt seas shocks td).columns =
      transactionColumns := by
  refine ⟨?_, rfl⟩
  have hrec : dc.enum.flatMap
      (fun p => perCustomerTx dt dp seas shocks td p.1 p.2) = [] := by
    rw [List.flatMap_eq_nil_iff]
    intro p _
    unfold perCustomerTx
    rw [List.flatMap_eq_nil_iff]
    intro q _
    exact monthTxRecs_of_zero_draw dt dp seas shocks td _ p.1 p.2 q.1 q.2
      (hz p.1 q.1)
  simp [generate_fact_transactions, hrec]

/-- Witness for C6 at a concrete run: one customer, no products, the Jan 2020
three-day calendar, all draws zero. -/
theorem C6_empty_table_schema_witness :
    (∀ ci mi, zeroTxDraws.nTx ci mi = 0) ∧
    ((generate_fact_transactions [c1Customer] []
        (generate_dim_time ⟨2020, 1, 1⟩ ⟨2020, 1, 3⟩) (fun _ => 1) (fun _ => 1)
        zeroTxDraws).rows = [] ∧
      (generate_fact_transactions [c1Customer] []
        (generate_dim_time ⟨2020, 1, 1⟩ ⟨2020, 1, 3⟩) (fun _ => 1) (fun _ => 1)
        zeroTxDraws).columns = transactionColumns) :=
  ⟨fun _ _ => rfl,
    C6_empty_table_schema [c1Customer] [] _ (fun _ => 1) (fun _ => 1) zeroTxDraws
      (fun _ _ => rfl)⟩

/-- Counterexample to C6 as stated: a zero-transaction run returns the
documented Transaction schema, which has eight columns, not seven. -/
theorem C6_seven_columns_counterexample :
    (generate_fact_transactions [] [] [] (fun _ => 1) (fun _ => 1)
        zeroTxDraws).rows = [] ∧
    (generate_fact_transactions [] [] [] (fun _ => 1) (fun _ => 1)
        zeroTxDraws).columns.length = 8 ∧
    (generate_fact_transactions [] [] [] (fun _ => 1) (fun _ => 1)
        zeroTxDraws).columns.length ≠ 7 := by
  refine ⟨rfl, rfl, ?_⟩
  intro h
  simp [generate_fact_transactions, transactionColumns] at h

/-! ### Acquisition window vs dataset span (C9) -/

theorem dateLt_trans (a b c : Date) (h1 : dateLt a b) (h2 : dateLt b c) :
    dateLt a c := by
  obtain ⟨ay, am, ad⟩ := a
  obtain ⟨by1, bm, bd⟩ := b
  obtain ⟨cy, cm, cd⟩ := c
  simp only [dateLt] at *
  omega

/-- A customer acquired strictly after the dataset end date can never keep a
churn candidate: any accepted candidate is after the acquisition, hence after
the end date, and is cleared by the cap. -/
theorem churnOf_none_of_end_lt (endD : Date) (p : ℚ) (u : Nat → ℚ)
    (mo : Nat → Nat) (acq : Date) (h : dateLt endD acq) :
    churnOf endD p u mo acq = none := by
  unfold churnOf
  split
  · rename_i c0 hc0
    rw [if_pos (dateLt_trans endD acq c0 h (churnScan_some_gt p u mo acq _ _ c0 hc0))]
  · rfl

/-- C9 (amended): the acquisition window is always [start, start+3y)
regardless of the dataset span, so a customer's acquisition date can fall
strictly after the dataset end date; such a customer is still emitted, always
with churn_date absent and is_active true, and the Transaction Sampler
generates zero transactions for it whenever its acquisition month is strictly
after the calendar's last month.  (When the acquisition date falls after the
end date but inside the end date's month, transactions can still be
generated — see the counterexample to the claim as stated.) -/
theorem C9_acquisition_window (dt : List CalendarDay) (n : Nat) (p : ℚ)
    (cd : CustomerDraws) (dp : List Product) (seas shocks : Nat → ℚ)
    (td : TxDraws) :
    (∀ c ∈ generate_dim_customer dt n p cd,
        dateLt (listMaxD (dt.map (fun r => r.date))) c.acquisition_date →
          c.churn_date = none ∧ c.is_active = true) ∧
    (∀ ci c, c.churn_date = none →
        monthIdx ((listMaxD (dt.map (fun r => r.date))).year,
            (listMaxD (dt.map (fun r => r.date))).month) <
          monthIdx (c.acquisition_date.year, c.acquisition_date.month) →
        perCustomerTx dt dp seas shocks td ci c = []) := by
  constructor
  · intro c hc hlt
    simp only [generate_dim_customer, List.mem_map, List.mem_range] at hc
    obtain ⟨i, _, rfl⟩ := hc
    unfold mkCustomer at hlt ⊢
    dsimp only at hlt ⊢
    have hnone := churnOf_none_of_end_lt _ p (cd.churnU i) (cd.churnMonth i) _ hlt
    rw [hnone]
    exact ⟨rfl, rfl⟩
  · intro ci c hnone hidx
    unfold perCustomerTx
    simp only [churnEffOf, hnone]
    have h0 : monthIdx ((listMaxD (dt.map (fun r => r.date))).year,
        (listMaxD (dt.map (fun r => r.date))).month) + 1 -
        monthIdx (c.acquisition_date.year, c.acquisition_date.month) = 0 := by
      omega
    simp [periodRange, h0]

/-- Draws putting the single customer's acquisition 19 days into the
3-year acquisition window (2020-01-20), with churn probability draws that
never fire. -/
def c9Draws : CustomerDraws :=
  ⟨fun _ => 19/1096, fun _ _ => 0, fun _ _ => 1, fun _ => 0, fun _ => 0, fun _ => 0⟩

/-- The customer generated from c9Draws on the Jan 1-15 2020 calendar:
acquired 2020-01-20, after the dataset end date, never churned, active. -/
def c9Customer : Customer :=
  ⟨1, .Retail, .North, 300, ⟨2020, 1, 20⟩, none, true⟩

def c9Product : Product := ⟨1, "Product 1", .Subscription, 100, 11/20⟩

/-- Transaction draws with one Poisson count draw of 1 in every month. -/
def c9TxDraws : TxDraws :=
  ⟨fun _ => 0, fun _ _ => 1, fun _ _ _ => 0, fun _ _ _ => 0, fun _ _ _ => 0,
   fun _ _ _ => 1, fun _ _ _ => 0⟩

theorem acquisitionOf_c9 :
    acquisitionOf ⟨2020, 1, 1⟩ (19/1096) = ⟨2020, 1, 20⟩ := by
  unfold acquisitionOf
  rw [show (toOrdinal (addYears ⟨2020, 1, 1⟩ 3) - toOrdinal ⟨2020, 1, 1⟩ : Nat)
      = 1096 from by decide]
  rw [show Nat.floor (((1096 : Nat) : ℚ) * (19/1096)) = 19 from by norm_num]
  decide

theorem churnOf_c9 :
    churnOf ⟨2020, 1, 15⟩ 0 (fun _ => 0) (fun _ => 1) ⟨2020, 1, 20⟩ = none := by
  unfold churnOf
  have h : churnScan 0 (fun _ => 0) (fun _ => 1) ⟨2020, 1, 20⟩ 2020 1 = none := by
    rw [show (1 : Nat) = 0 + 1 from rfl, churnScan]
    rw [if_neg (by norm_num)]
    rfl
  simp [h]

theorem mkCustomer_c9 :
    mkCustomer ⟨2020, 1, 1⟩ ⟨2020, 1, 15⟩ 0 c9Draws 0 = c9Customer := by
  unfold mkCustomer c9Draws
  dsimp only
  rw [acquisitionOf_c9]
  rw [churnOf_c9]
  unfold c9Customer segmentOfDraw regionOfDraw clampQ
  norm_num

theorem generate_dim_customer_c9 :
    generate_dim_customer (generate_dim_time ⟨2020, 1, 1⟩ ⟨2020, 1, 15⟩) 1 0
      c9Draws = [c9Customer] := by
  have hmin :
      listMinD ((generate_dim_time ⟨2020, 1, 1⟩ ⟨2020, 1, 15⟩).map (fun r => r.date))
        = ⟨2020, 1, 1⟩ := by decide
  have hmax :
      listMaxD ((generate_dim_time ⟨2020, 1, 1⟩ ⟨2020, 1, 15⟩).map (fun r => r.date))
        = ⟨2020, 1, 15⟩ := by decide
  simp only [generate_dim_customer]
  rw [hmin, hmax, show List.range 1 = [0] from rfl, List.map_cons, List.map_nil,
    mkCustomer_c9]

/-- Counterexample to C9 as stated: on the 15-day calendar 2020-01-01 ..
2020-01-15 (span shorter than 3 years) the draws c9Draws put the acquisition
at 2020-01-20, strictly after the end date; the customer is emitted active
with no churn date, yet the Transaction Sampler emits one transaction for it
(the acquisition month coincides with the calendar's last month), instead of
the zero transactions the claim asserts. -/
theorem C9_zero_transactions_counterexample :
    generate_dim_customer (generate_dim_time ⟨2020, 1, 1⟩ ⟨2020, 1, 15⟩) 1 0
        c9Draws = [c9Customer] ∧
    toOrdinal ⟨2020, 1, 15⟩ - toOrdinal ⟨2020, 1, 1⟩ <
      toOrdinal (addYears ⟨2020, 1, 1⟩ 3) - toOrdinal ⟨2020, 1, 1⟩ ∧
    dateLt (listMaxD ((generate_dim_time ⟨2020, 1, 1⟩ ⟨2020, 1, 15⟩).map
      (fun r => r.date))) c9Customer.acquisition_date ∧
    c9Customer.churn_date = none ∧ c9Customer.is_active = true ∧
    (generate_fact_transactions [c9Customer] [c9Product]
        (generate_dim_time ⟨2020, 1, 1⟩ ⟨2020, 1, 15⟩) (fun _ => 1) (fun _ => 1)
        c9TxDraws).rows.length = 1 := by
  refine ⟨generate_dim_customer_c9, by decide, by decide, rfl, rfl, ?_⟩
  simp only [generate_fact_transactions, List.length_map, List.enum_length]
  rw [show [c9Customer].enum = [(0, c9Customer)] from rfl, List.flatMap_cons,
    List.flatMap_nil, List.append_nil]
  unfold perCustomerTx
  simp only [churnEffOf]
  rw [show c9Customer.churn_date = none from rfl]
  rw [show listMaxD ((generate_dim_time ⟨2020, 1, 1⟩ ⟨2020, 1, 15⟩).map
      (fun r => r.date)) = ⟨2020, 1, 15⟩ from by decide]
  rw [show periodRange (c9Customer.acquisition_date.year,
      c9Customer.acquisition_date.month) ((⟨2020, 1, 15⟩ : Date).year,
      (⟨2020, 1, 15⟩ : Date).month) = [(2020, 1)] from by decide]
  rw [show ([((2020 : Nat), (1 : Nat))]).enum = [(0, (2020, 1))] from rfl,
    List.flatMap_cons, List.flatMap_nil, List.append_nil]
  unfold monthTxRecs
  dsimp only
  rw [if_neg (by decide)]
  simp [c9TxDraws]

/-- Witness for the amended C9: the c9 run instantiates part one (the
customer acquired 2020-01-20 on the calendar ending 2020-01-15 keeps no churn
date and stays active), and a customer acquired in February instantiates part
two (its acquisition month is after the calendar's last month, so the sampler
emits nothing for it). -/
theorem C9_acquisition_window_witness :
    (c9Customer.churn_date = none ∧ c9Customer.is_active = true) ∧
    perCustomerTx (generate_dim_time ⟨2020, 1, 1⟩ ⟨2020, 1, 15⟩) [c9Product]
      (fun _ => 1) (fun _ => 1) c9TxDraws 0
      ⟨1, .Retail, .North, 300, ⟨2020, 2, 5⟩, none, true⟩ = [] := by
  have hthm := C9_acquisition_window
    (generate_dim_time ⟨2020, 1, 1⟩ ⟨2020, 1, 15⟩) 1 0 c9Draws [c9Product]
    (fun _ => 1) (fun _ => 1) c9TxDraws
  have hm : c9Customer ∈ generate_dim_customer
      (generate_dim_time ⟨2020, 1, 1⟩ ⟨2020, 1, 15⟩) 1 0 c9Draws := by
    rw [generate_dim_customer_c9]
    exact List.mem_singleton.mpr rfl
  exact ⟨hthm.1 c9Customer hm (by decide),
    hthm.2 0 ⟨1, .Retail, .North, 300, ⟨2020, 2, 5⟩, none, true⟩ rfl (by decide)⟩

/-! ### Churn-month sampling granularity (C10) -/

theorem churnScan_some_day (p : ℚ) (u : Nat → ℚ) (mo : Nat → Nat) (acq : Date) :
    ∀ fuel y c, churnScan p u mo acq y fuel = some c → c.day = 1 := by
  intro fuel
  induction fuel with
  | zero => intro y c h; simp [churnScan] at h
  | succ k ih =>
    intro y c h
    rw [churnScan] at h
    split at h
    · split at h
      · obtain rfl : c = ⟨y, mo y, 1⟩ := by simpa using h.symm
        rfl
      · simp at h
    · exact ih (y + 1) c h

theorem mem_periodRange (a b ym : Nat × Nat) (h : ym ∈ periodRange a b) :
    monthIdx a ≤ monthIdx ym ∧ monthIdx ym ≤ monthIdx b := by
  simp only [periodRange, List.mem_map, List.mem_range] at h
  obtain ⟨k, hk, rfl⟩ := h
  unfold monthIdx at hk ⊢
  dsimp only at hk ⊢
  omega

theorem mem_monthTxRecs_date_key (dt : List CalendarDay) (dp : List Product)
    (seas shocks : Nat → ℚ) (td : TxDraws) (tier : ℚ) (ci : Nat) (c : Customer)
    (mi : Nat) (ym : Nat × Nat) (r : TxRec)
    (hr : r ∈ monthTxRecs dt dp seas shocks td tier ci c mi ym) :
    r.date_key ∈ monthDates dt ym.1 ym.2 := by
  unfold monthTxRecs at hr
  dsimp only at hr
  split at hr
  · simp at hr
  · rename_i hne
    simp only [List.mem_map, List.mem_range] at hr
    obtain ⟨j, hj, rfl⟩ := hr
    dsimp only
    have hlen : 0 < (monthDates dt ym.1 ym.2).length := by
      cases hmd : monthDates dt ym.1 ym.2 with
      | nil => rw [hmd] at hne; simp at hne
      | cons a t => simp [hmd]
    have hmod : td.dateU ci mi j % (monthDates dt ym.1 ym.2).length
        < (monthDates dt ym.1 ym.2).length := Nat.mod_lt _ hlen
    rw [List.getD_eq_getElem _ _ hmod]
    exact List.getElem_mem hmod

/-- Draws churning the single customer at 2020-02-01. -/
def c10Draws : CustomerDraws :=
  ⟨fun _ => 0, fun _ _ => 0, fun _ _ => 2, fun _ => 0, fun _ => 0, fun _ => 0⟩

/-- The customer generated from c10Draws on the Jan-Mar 2020 calendar:
acquired 2020-01-01, churned 2020-02-01. -/
def c10Customer : Customer :=
  ⟨1, .Retail, .North, 300, ⟨2020, 1, 1⟩, some ⟨2020, 2, 1⟩, false⟩

/-- Transaction draws emitting one transaction in the second active month
(the churn month), dated at that month's 15th calendar day. -/
def c10TxDraws : TxDraws :=
  ⟨fun _ => 0, fun _ mi => if mi = 1 then 1 else 0, fun _ _ _ => 14,
   fun _ _ _ => 0, fun _ _ _ => 0, fun _ _ _ => 1, fun _ _ _ => 0⟩

theorem churnOf_c10 :
    churnOf ⟨2020, 3, 31⟩ 1 (fun _ => 0) (fun _ => 2) ⟨2020, 1, 1⟩
      = some ⟨2020, 2, 1⟩ := by
  unfold churnOf
  have h : churnScan 1 (fun _ => 0) (fun _ => 2) ⟨2020, 1, 1⟩ 2020 1
      = some ⟨2020, 2, 1⟩ := by
    rw [show (1 : Nat) = 0 + 1 from rfl, churnScan]
    rw [if_pos (by norm_num), if_pos (by decide)]
  simp [h, dateLt]

theorem mkCustomer_c10 :
    mkCustomer ⟨2020, 1, 1⟩ ⟨2020, 3, 31⟩ 1 c10Draws 0 = c10Customer := by
  unfold mkCustomer c10Draws
  dsimp only
  rw [acquisitionOf_zero]
  rw [churnOf_c10]
  unfold c10Customer segmentOfDraw regionOfDraw clampQ
  norm_num

set_option maxRecDepth 10000 in
theorem generate_dim_customer_c10 :
    generate_dim_customer (generate_dim_time ⟨2020, 1, 1⟩ ⟨2020, 3, 31⟩) 1 1
      c10Draws = [c10Customer] := by
  have hmin :
      listMinD ((generate_dim_time ⟨2020, 1, 1⟩ ⟨2020, 3, 31⟩).map (fun r => r.date))
        = ⟨2020, 1, 1⟩ := by decide
  have hmax :
      listMaxD ((generate_dim_time ⟨2020, 1, 1⟩ ⟨2020, 3, 31⟩).map (fun r => r.date))
        = ⟨2020, 3, 31⟩ := by decide
  simp only [generate_dim_customer]
  rw [hmin, hmax, show List.range 1 = [0] from rfl, List.map_cons, List.map_nil,
    mkCustomer_c10]

theorem tx_rows_date_keys (recs : List TxRec) :
    ((recs.enum.map (fun p =>
      ({ transaction_id := p.1 + 1
         date_key := p.2.date_key
         customer_id := p.2.customer_id
         product_id := p.2.product_id
         quantity := p.2.quantity
         net_revenue := p.2.net_revenue
         direct_cost := p.2.direct_cost
         channel := p.2.channel } : Transaction))).map (fun t => t.date_key))
      = recs.map (fun r => r.date_key) := by
  rw [List.map_map]
  rw [show ((fun t : Transaction => t.date_key) ∘ (fun p : Nat × TxRec =>
      ({ transaction_id := p.1 + 1
         date_key := p.2.date_key
         customer_id := p.2.customer_id
         product_id := p.2.product_id
         quantity := p.2.quantity
         net_revenue := p.2.net_revenue
         direct_cost := p.2.direct_cost
         channel := p.2.channel } : Transaction)))
      = (fun r : TxRec => r.date_key) ∘ Prod.snd from rfl]
  rw [← List.map_map, List.enum_map_snd]

set_option maxRecDepth 10000 in
theorem c10_tx_date_keys :
    ((generate_fact_transactions [c10Customer] [c9Product]
        (generate_dim_time ⟨2020, 1, 1⟩ ⟨2020, 3, 31⟩) (fun _ => 1) (fun _ => 1)
        c10TxDraws).rows.map (fun t => t.date_key)) = [20200215] := by
  simp only [generate_fact_transactions]
  rw [tx_rows_date_keys]
  rw [show ([c10Customer]).enum = [(0, c10Customer)] from rfl, List.flatMap_cons,
    List.flatMap_nil, List.append_nil]
  unfold perCustomerTx
  dsimp only
  rw [show churnEffOf (generate_dim_time ⟨2020, 1, 1⟩ ⟨2020, 3, 31⟩) c10Customer
      = ⟨2020, 2, 1⟩ from rfl]
  rw [show periodRange (c10Customer.acquisition_date.year,
      c10Customer.acquisition_date.month)
      ((⟨2020, 2, 1⟩ : Date).year, (⟨2020, 2, 1⟩ : Date).month)
      = [(2020, 1), (2020, 2)] from by decide]
  rw [show ([((2020 : Nat), (1 : Nat)), (2020, 2)]).enum
      = [(0, (2020, 1)), (1, (2020, 2))] from rfl]
  rw [List.flatMap_cons, List.flatMap_cons, List.flatMap_nil, List.append_nil,
    List.map_append]
  rw [monthTxRecs_of_zero_draw (generate_dim_time ⟨2020, 1, 1⟩ ⟨2020, 3, 31⟩)
    [c9Product] (fun _ => 1) (fun _ => 1) c10TxDraws
    (spendTierOfDraw (c10TxDraws.spendTierU 0)) 0 c10Customer 0 (2020, 1) rfl]
  unfold monthTxRecs
  dsimp only
  rw [if_neg (by decide)]
  rw [show c10TxDraws.nTx 0 1 = 1 from rfl]
  rw [List.map_map, List.map_nil, List.nil_append]
  decide

/-- C10: a churn_date produced by the Customer Lifecycle Simulator always
falls on the 1st of its month; every transaction of a customer lies, at month
granularity, between the acquisition month and the churn month (dataset-end
month when no churn) — its date is one of that month's calendar days, not
bounded by the exact acquisition or churn day; and there is a random stream
under which a churned customer has a transaction whose calendar date is
strictly after its churn_date (the sampler draws dates uniformly over the
whole churn month). -/
theorem C10_churn_month_sampling :
    (∀ (dt : List CalendarDay) (n : Nat) (p : ℚ) (cd : CustomerDraws),
      ∀ c ∈ generate_dim_customer dt n p cd,
        ∀ d, c.churn_date = some d → d.day = 1) ∧
    (∀ (dt : List CalendarDay) (dp : List Product) (seas shocks : Nat → ℚ)
        (td : TxDraws) (ci : Nat) (c : Customer),
      ∀ r ∈ perCustomerTx dt dp seas shocks td ci c,
        ∃ ym : Nat × Nat,
          monthIdx (c.acquisition_date.year, c.acquisition_date.month)
              ≤ monthIdx ym ∧
            monthIdx ym
              ≤ monthIdx ((churnEffOf dt c).year, (churnEffOf dt c).month) ∧
            r.date_key ∈ monthDates dt ym.1 ym.2) ∧
    (generate_dim_customer (generate_dim_time ⟨2020, 1, 1⟩ ⟨2020, 3, 31⟩) 1 1
        c10Draws = [c10Customer] ∧
      c10Customer.churn_date = some ⟨2020, 2, 1⟩ ∧
      ((generate_fact_transactions [c10Customer] [c9Product]
          (generate_dim_time ⟨2020, 1, 1⟩ ⟨2020, 3, 31⟩) (fun _ => 1)
          (fun _ => 1) c10TxDraws).rows.map (fun t => t.date_key))
        = [date_key ⟨2020, 2, 15⟩] ∧
      dateLt ⟨2020, 2, 1⟩ ⟨2020, 2, 15⟩) := by
  refine ⟨?_, ?_, generate_dim_customer_c10, rfl, c10_tx_date_keys, by decide⟩
  · intro dt n p cd c hc d hd
    simp only [generate_dim_customer, List.mem_map, List.mem_range] at hc
    obtain ⟨i, _, rfl⟩ := hc
    unfold mkCustomer at hd
    dsimp only at hd
    unfold churnOf at hd
    split at hd
    · rename_i c0 hc0
      split at hd
      · simp at hd
      · obtain rfl : d = c0 := by simpa using hd.symm
        exact churnScan_some_day _ _ _ _ _ _ _ hc0
    · simp at hd
  · intro dt dp seas shocks td ci c r hr
    unfold perCustomerTx at hr
    dsimp only at hr
    rw [List.mem_flatMap] at hr
    obtain ⟨pq, hpq, hrin⟩ := hr
    have hmem := List.snd_mem_of_mem_enum hpq
    have hb := mem_periodRange _ _ _ hmem
    exact ⟨pq.2, hb.1, hb.2,
      mem_monthTxRecs_date_key dt dp seas shocks td _ ci c pq.1 pq.2 r hrin⟩

/-- Witness for C10: the c10 run — its generated customer churns on
2020-02-01, and the claim theorem applied to it yields that this churn date
falls on day 1 of its month. -/
theorem C10_churn_month_sampling_witness :
    (⟨2020, 2, 1⟩ : Date).day = 1 ∧ dateLt ⟨2020, 2, 1⟩ ⟨2020, 2, 15⟩ := by
  have hm : c10Customer ∈ generate_dim_customer
      (generate_dim_time ⟨2020, 1, 1⟩ ⟨2020, 3, 31⟩) 1 1 c10Draws := by
    rw [generate_dim_customer_c10]
    exact List.mem_singleton.mpr rfl
  exact ⟨C10_churn_month_sampling.1 _ 1 1 c10Draws c10Customer hm
      ⟨2020, 2, 1⟩ rfl,
    C10_churn_month_sampling.2.2.2.2.2⟩

/-! ## Financial posting derivation (src/generate/financials.py,
generate_fact_financials) -/

/-- One row of fact_financials (final column order). -/
structure Posting where
  posting_id : Nat
  date_key : Nat
  account_id : Nat
  cost_center_id : Option Nat
  amount : ℚ
  currency : String
deriving DecidableEq, Repr

/-- One record of the recs list (tuple order of the Python append; np.nan for
a missing cost center is an absent optional). -/
structure PostingRec where
  date_key : Nat
  account_id : Nat
  cost_center_id : Option Nat
  amount : ℚ
  currency : String
deriving DecidableEq, Repr

/-- src/generate/financials.py category_to_account. -/
def category_to_account : Category → Nat
  | .Subscription => 4000
  | .Service => 4001
  | _ => 4002

/-- src/generate/financials.py dept_to_account. -/
def dept_to_account (dept : String) : Nat :=
  if dept = "Sales" ∨ dept = "Marketing" then 6000
  else if dept = "Operations" then 6100
  else if dept = "IT" then 6200
  else 6300

def isRevAccount (a : Nat) : Bool := a == 4000 || a == 4001 || a == 4002

def isOpexAccount (a : Nat) : Bool := a == 6000 || a == 6100 || a == 6200 || a == 6300

/-- Insertion step of the sort used to model the sorted group keys of pandas
groupby. -/
def insertLe (le : α → α → Bool) (a : α) : List α → List α
  | [] => [a]
  | b :: l => if le a b then a :: b :: l else b :: insertLe le a l

/-- Insertion sort (pandas groupby sorts group keys ascending). -/
def sortLe (le : α → α → Bool) (l : List α) : List α := l.foldr (insertLe le) []

/-- pandas groupby(key).sum(): one (key, sum of val over the key's rows) pair
per distinct key, keys in ascending order. -/
def groupBySum [DecidableEq κ] (le : κ → κ → Bool) (key : α → κ) (val : α → ℚ)
    (l : List α) : List (κ × ℚ) :=
  (sortLe le (l.map key).dedup).map
    (fun k => (k, ((l.filter (fun a => decide (key a = k))).map val).sum))

/-- Ascending lexicographic order on pairs of naturals (groupby key order for
two-level keys). -/
def lex2 (a b : Nat × Nat) : Bool := a.1 < b.1 || (a.1 == b.1 && a.2 ≤ b.2)

/-- The (year, month) of a date_key via the dim_time table: pandas merge of a
key against dim_time (whose date_keys are unique in a well-formed calendar). -/
def monthLookup (dt : List CalendarDay) (k : Nat) : Option (Nat × Nat) :=
  (dt.find? (fun r => r.date_key == k)).map (fun r => (r.year, r.month))

/-- The month-end posting date of (y, m): the max date_key among the month's
rows flagged is_month_end; absent when the month has no such row. -/
def month_end_key (dt : List CalendarDay) (y m : Nat) : Option Nat :=
  ((dt.filter (fun r => r.is_month_end && r.year == y && r.month == m)).map
    (fun r => r.date_key)).max?

/-- The normalized base cost-center weights: the fixed six-entry vector
truncated to the cost-center count and renormalized to sum to 1. -/
def baseWeights (n : Nat) : List ℚ :=
  let w0 := ([0.2, 0.15, 0.25, 0.15, 0.1, 0.15] : List ℚ).take n
  w0.map (fun x => x / w0.sum)

/-- fact_transactions joined to products for the category (inner join on
product_id; pipeline product ids are unique, so the first match is the
match). -/
def txWithCategory (txs : List Transaction) (dp : List Product) :
    List (Transaction × Category) :=
  txs.filterMap
    (fun t => (dp.find? (fun p => p.product_id == t.product_id)).map
      (fun p => (t, p.category)))

/-- Revenue postings grouping: by (date_key, revenue account), summing
net_revenue. -/
def revenueGroups (tx : List (Transaction × Category)) : List ((Nat × Nat) × ℚ) :=
  groupBySum lex2 (fun tc => (tc.1.date_key, category_to_account tc.2))
    (fun tc => tc.1.net_revenue) tx

/-- Monthly revenue: the revenue groups joined to dim_time for (year, month)
(groups whose date_key is absent from dim_time drop out of the inner join),
then grouped by (year, month). -/
def monthlyRev (dt : List CalendarDay) (rev_grp : List ((Nat × Nat) × ℚ)) :
    List ((Nat × Nat) × ℚ) :=
  groupBySum lex2 (fun e => e.1) (fun e => e.2)
    (rev_grp.filterMap
      (fun g => (monthLookup dt g.1.1).map (fun ym => (ym, g.2))))

/-- The OPEX records of one monthly-revenue entry at month position j: skipped
without a (truthy) month-end posting date; otherwise the monthly total
−revenue·opex_ratio split over the cost centers by the noise-perturbed,
renormalized weights (the zip truncates to the shorter of the cost-center
list and the weight vector, as Python zip does). -/
def opexRecsOfMonth (dt : List CalendarDay) (cc : List CostCenter) (ratio : ℚ)
    (noise : Nat → Nat → ℚ) (j : Nat) (ym : Nat × Nat) (rev : ℚ) :
    List PostingRec :=
  match month_end_key dt ym.1 ym.2 with
  | none => []
  | some posting_date =>
    if posting_date = 0 then []
    else
      let total_opex := -(rev * ratio)
      let w := baseWeights cc.length
      let ns := (List.range cc.length).map (noise j)
      let wn := List.zipWith (fun a b => a * b) w ns
      let w_adj := wn.map (fun x => x / wn.sum)
      (cc.zip w_adj).map (fun cw =>
        ⟨posting_date, dept_to_account cw.1.department, some cw.1.cost_center_id,
          total_opex * cw.2, "EUR"⟩)

/-- Sequential posting ids starting at n over a record list (np.arange(1,
len+1) numbering of the concatenated records). -/
def numberRecs (n : Nat) : List PostingRec → List Posting
  | [] => []
  | r :: t =>
    ⟨n, r.date_key, r.account_id, r.cost_center_id, r.amount, r.currency⟩ ::
      numberRecs (n + 1) t

/-- src/generate/financials.py generate_fact_financials: revenue postings by
(date, account), COGS postings by date on account 5000, then monthly OPEX
allocations across cost centers, with posting ids assigned over the
concatenation. -/
def generate_fact_financials (fact_transactions : List Transaction)
    (dim_product : List Product) (dim_cost_center : List CostCenter)
    (dt : List CalendarDay) (ratio : ℚ) (noise : Nat → Nat → ℚ) : List Posting :=
  let tx := txWithCategory fact_transactions dim_product
  let rev_grp := revenueGroups tx
  let revRecs : List PostingRec :=
    rev_grp.map (fun g => ⟨g.1.1, g.1.2, none, g.2, "EUR"⟩)
  let cogs_grp := groupBySum (fun a b => a ≤ b) (fun tc => tc.1.date_key)
    (fun tc => tc.1.direct_cost) tx
  let cogsRecs : List PostingRec :=
    cogs_grp.map (fun g => ⟨g.1, 5000, none, -g.2, "EUR"⟩)
  let monthly := monthlyRev dt rev_grp
  let opexRecs : List PostingRec :=
    monthly.enum.flatMap
      (fun me => opexRecsOfMonth dt dim_cost_center ratio noise me.1 me.2.1 me.2.2)
  numberRecs 1 (revRecs ++ cogsRecs ++ opexRecs)

/-! ### Grouping and numbering lemmas -/

theorem insertLe_perm (le : α → α → Bool) (a : α) (l : List α) :
    (insertLe le a l).Perm (a :: l) := by
  induction l with
  | nil => exact List.Perm.refl _
  | cons b t ih =>
    rw [insertLe]
    split
    · exact List.Perm.refl _
    · exact (ih.cons b).trans (List.Perm.swap a b t)

theorem sortLe_perm (le : α → α → Bool) (l : List α) : (sortLe le l).Perm l := by
  induction l with
  | nil => exact List.Perm.refl _
  | cons b t ih => exact (insertLe_perm le b (sortLe le t)).trans (ih.cons b)

theorem sortLe_nodup (le : α → α → Bool) (l : List α) (h : l.Nodup) :
    (sortLe le l).Nodup := ((sortLe_perm le l).nodup_iff).mpr h

theorem sortLe_mem (le : α → α → Bool) (l : List α) (a : α) :
    a ∈ sortLe le l ↔ a ∈ l := (sortLe_perm le l).mem_iff

theorem groupBySum_keys_nodup [DecidableEq κ] (le : κ → κ → Bool) (key : α → κ)
    (val : α → ℚ) (l : List α) :
    ((groupBySum le key val l).map (fun g => g.1)).Nodup := by
  unfold groupBySum
  rw [List.map_map]
  have h : ((fun g : κ × ℚ => g.1) ∘
      (fun k => (k, ((l.filter (fun a => decide (key a = k))).map val).sum)))
      = fun k => k := rfl
  rw [h, List.map_id_fun']
  exact sortLe_nodup _ _ (List.nodup_dedup _)

theorem mem_groupBySum [DecidableEq κ] (le : κ → κ → Bool) (key : α → κ)
    (val : α → ℚ) (l : List α) (g : κ × ℚ) (h : g ∈ groupBySum le key val l) :
    g.1 ∈ l.map key ∧
      g.2 = ((l.filter (fun a => decide (key a = g.1))).map val).sum := by
  unfold groupBySum at h
  simp only [List.mem_map] at h
  obtain ⟨k, hk, rfl⟩ := h
  rw [sortLe_mem, List.mem_dedup] at hk
  exact ⟨hk, rfl⟩

theorem groupBySum_key_mem [DecidableEq κ] (le : κ → κ → Bool) (key : α → κ)
    (val : α → ℚ) (l : List α) (k : κ) (hk : k ∈ l.map key) :
    (k, ((l.filter (fun a => decide (key a = k))).map val).sum)
      ∈ groupBySum le key val l := by
  unfold groupBySum
  simp only [List.mem_map]
  exact ⟨k, (sortLe_mem _ _ _).mpr (List.mem_dedup.mpr hk), rfl⟩

theorem mem_numberRecs (p : Posting) :
    ∀ (recs : List PostingRec) (n : Nat), p ∈ numberRecs n recs →
      ∃ r ∈ recs, p.date_key = r.date_key ∧ p.account_id = r.account_id ∧
        p.cost_center_id = r.cost_center_id ∧ p.amount = r.amount := by
  intro recs
  induction recs with
  | nil => intro n h; simp [numberRecs] at h
  | cons r t ih =>
    intro n h
    rw [numberRecs] at h
    rcases List.mem_cons.mp h with rfl | h
    · exact ⟨r, List.mem_cons_self r t, rfl, rfl, rfl, rfl⟩
    · obtain ⟨r0, hr0, hf⟩ := ih (n + 1) h
      exact ⟨r0, List.mem_cons_of_mem r hr0, hf⟩

theorem numberRecs_filter_map {γ : Type} (q : Nat → Nat → Bool)
    (f : Nat → Nat → Option Nat → ℚ → γ) :
    ∀ (recs : List PostingRec) (n : Nat),
      (((numberRecs n recs).filter (fun p => q p.date_key p.account_id)).map
        (fun p => f p.date_key p.account_id p.cost_center_id p.amount))
      = ((recs.filter (fun r => q r.date_key r.account_id)).map
        (fun r => f r.date_key r.account_id r.cost_center_id r.amount)) := by
  intro recs
  induction recs with
  | nil => intro n; rfl
  | cons r t ih =>
    intro n
    rw [numberRecs]
    by_cases hq : q r.date_key r.account_id
    · rw [List.filter_cons_of_pos (by simpa using hq),
        List.filter_cons_of_pos (by simpa using hq), List.map_cons, List.map_cons,
        ih (n + 1)]
    · rw [List.filter_cons_of_neg (by simpa using hq),
        List.filter_cons_of_neg (by simpa using hq), ih (n + 1)]

theorem filter_eq_of_nodup [DecidableEq κ] (l : List κ) (h : l.Nodup) (k : κ) :
    l.filter (fun x => decide (x = k)) = if k ∈ l then [k] else [] := by
  induction l with
  | nil => simp
  | cons b t ih =>
    rw [List.nodup_cons] at h
    by_cases hb : b = k
    · subst hb
      rw [List.filter_cons_of_pos (by simp)]
      simp [ih h.2, h.1]
    · rw [List.filter_cons_of_neg (by simpa using hb)]
      rw [ih h.2]
      by_cases hk : k ∈ t <;> simp [hk, hb, Ne.symm hb]

/-- A sum over an enumerated list whose summand vanishes away from one key
collapses to the matching entries. -/
theorem sum_enumFrom_concentrated {β : Type} [DecidableEq κ] (key : β → κ)
    (k0 : κ) (S : Nat → β → ℚ) (G : β → ℚ)
    (hz : ∀ i b, key b ≠ k0 → S i b = 0)
    (hg : ∀ i b, key b = k0 → S i b = G b) :
    ∀ (l : List β) (n : Nat),
      ((l.enumFrom n).map (fun p => S p.1 p.2)).sum
        = ((l.filter (fun b => decide (key b = k0))).map G).sum := by
  intro l
  induction l with
  | nil => intro n; rfl
  | cons b t ih =>
    intro n
    rw [List.enumFrom_cons, List.map_cons, List.sum_cons]
    by_cases hb : key b = k0
    · rw [List.filter_cons_of_pos (by simpa using hb), List.map_cons,
        List.sum_cons, hg n b hb, ih (n + 1)]
    · rw [List.filter_cons_of_neg (by simpa using hb), hz n b hb, ih (n + 1),
        zero_add]

/-! ### Calendar-table helpers for the posting derivation -/

theorem generate_dim_time_keys_nodup (s e : Date) (hs : ValidDate s) :
    ((generate_dim_time s e).map (fun r => r.date_key)).Nodup := by
  have h := generate_dim_time_keys_chain s e hs
  have hp := (List.chain'_iff_pairwise).mp h
  exact hp.imp (fun hab => Nat.ne_of_lt hab)

theorem month_end_key_row (dt : List CalendarDay) (y m k : Nat)
    (h : month_end_key dt y m = some k) :
    ∃ r ∈ dt, r.date_key = k ∧ r.year = y ∧ r.month = m ∧
      r.is_month_end = true := by
  unfold month_end_key at h
  have hk := List.max?_mem (by intro a b; omega) h
  simp only [List.mem_map, List.mem_filter] at hk
  obtain ⟨r, ⟨hr, hcond⟩, rfl⟩ := hk
  simp only [Bool.and_eq_true, beq_iff_eq] at hcond
  exact ⟨r, hr, rfl, hcond.1.2, hcond.2, hcond.1.1⟩

theorem month_end_key_inj (s e : Date) (hs : ValidDate s) (y m y2 m2 k : Nat)
    (h1 : month_end_key (generate_dim_time s e) y m = some k)
    (h2 : month_end_key (generate_dim_time s e) y2 m2 = some k) :
    y = y2 ∧ m = m2 := by
  obtain ⟨r1, hr1, hk1, hy1, hm1, _⟩ := month_end_key_row _ _ _ _ h1
  obtain ⟨r2, hr2, hk2, hy2, hm2, _⟩ := month_end_key_row _ _ _ _ h2
  have hinj := List.inj_on_of_nodup_map (generate_dim_time_keys_nodup s e hs)
  have : r1 = r2 := hinj hr1 hr2 (by rw [hk1, hk2])
  subst this
  exact ⟨hy1 ▸ hy2.symm ▸ rfl, hm1 ▸ hm2.symm ▸ rfl⟩

theorem month_end_key_ne_zero (s e : Date) (hs : ValidDate s) (y m k : Nat)
    (h : month_end_key (generate_dim_time s e) y m = some k) : k ≠ 0 := by
  obtain ⟨r, hr, hk, _, _, _⟩ := month_end_key_row _ _ _ _ h
  have hrow := generate_dim_time_rows s e r hr
  have hv := generate_dim_time_valid s e hs r hr
  obtain ⟨h1, _, _, _, _⟩ := hv
  rw [← hk, hrow]
  simp only [toCalendarDay, date_key]
  intro hzero
  omega

/-! ### Arithmetic helpers for the OPEX allocation -/

theorem sum_map_div (l : List ℚ) (s : ℚ) :
    (l.map (fun x => x / s)).sum = l.sum / s := by
  induction l with
  | nil => simp
  | cons a t ih => simp [ih, add_div]

theorem map_snd_zip_eq {α β : Type} :
    ∀ (l1 : List α) (l2 : List β), l1.length = l2.length →
      (l1.zip l2).map Prod.snd = l2 := by
  intro l1
  induction l1 with
  | nil => intro l2 h; cases l2 with
    | nil => rfl
    | cons b t => simp at h
  | cons a t ih =>
    intro l2 h
    cases l2 with
    | nil => simp at h
    | cons b t2 =>
      simp only [List.zip_cons_cons, List.map_cons]
      rw [ih t2 (by simpa using h)]

theorem mem_zipWith {α β γ : Type} (f : α → β → γ) :
    ∀ (l1 : List α) (l2 : List β) (x : γ), x ∈ List.zipWith f l1 l2 →
      ∃ a ∈ l1, ∃ b ∈ l2, x = f a b := by
  intro l1
  induction l1 with
  | nil => intro l2 x h; simp at h
  | cons a t ih =>
    intro l2 x h
    cases l2 with
    | nil => simp at h
    | cons b t2 =>
      rw [List.zipWith_cons_cons] at h
      rcases List.mem_cons.mp h with rfl | h
      · exact ⟨a, List.mem_cons_self a t, b, List.mem_cons_self b t2, rfl⟩
      · obtain ⟨a0, ha0, b0, hb0, rfl⟩ := ih t2 x h
        exact ⟨a0, List.mem_cons_of_mem a ha0, b0, List.mem_cons_of_mem b hb0, rfl⟩

theorem baseWeights_length (n : Nat) (h : n ≤ 6) :
    (baseWeights n).length = n := by
  unfold baseWeights
  simp only [List.length_map, List.length_take, List.length_cons,
    List.length_nil]
  omega

theorem baseWeights_nonneg (n : Nat) (x : ℚ) (hx : x ∈ baseWeights n) : 0 ≤ x := by
  unfold baseWeights at hx
  simp only [List.mem_map] at hx
  obtain ⟨y, hy, rfl⟩ := hx
  have hmem : ∀ z ∈ (([0.2, 0.15, 0.25, 0.15, 0.1, 0.15] : List ℚ).take n),
      0 ≤ z := by
    intro z hz
    have hz2 := List.mem_of_mem_take hz
    simp only [List.mem_cons, List.not_mem_nil, or_false] at hz2
    rcases hz2 with rfl | rfl | rfl | rfl | rfl | rfl <;> norm_num
  exact div_nonneg (hmem y hy) (List.sum_nonneg hmem)

theorem isOpexAccount_dept (d : String) : isOpexAccount (dept_to_account d) = true := by
  unfold dept_to_account isOpexAccount
  split
  · rfl
  · split
    · rfl
    · split <;> rfl

theorem isRevAccount_dept (d : String) : isRevAccount (dept_to_account d) = false := by
  unfold dept_to_account isRevAccount
  split
  · rfl
  · split
    · rfl
    · split <;> rfl

theorem isOpexAccount_category (c : Category) :
    isOpexAccount (category_to_account c) = false := by
  cases c <;> rfl

theorem isRevAccount_category (c : Category) :
    isRevAccount (category_to_account c) = true := by
  cases c <;> rfl

theorem sum_map_neg {β : Type} (l : List β) (f : β → ℚ) :
    (l.map (fun b => -(f b))).sum = -((l.map f).sum) := by
  induction l with
  | nil => simp
  | cons a t ih => simp [ih]; ring

theorem sum_flatMap {β γ : Type} (l : List β) (F : β → List γ) (f : γ → ℚ) :
    ((l.flatMap F).map f).sum = (l.map (fun b => ((F b).map f).sum)).sum := by
  induction l with
  | nil => rfl
  | cons a t ih => simp [List.flatMap_cons, ih]

theorem groupBySum_filter_sum [DecidableEq κ] (le : κ → κ → Bool) (key : α → κ)
    (val : α → ℚ) (l : List α) (k0 : κ) :
    (((groupBySum le key val l).filter (fun g => decide (g.1 = k0))).map
      (fun g => g.2)).sum
      = ((l.filter (fun a => decide (key a = k0))).map val).sum := by
  unfold groupBySum
  rw [List.filter_map]
  have hcomp : ((fun g : κ × ℚ => decide (g.1 = k0)) ∘
      (fun k => (k, ((l.filter (fun a => decide (key a = k))).map val).sum)))
      = fun k => decide (k = k0) := rfl
  rw [hcomp]
  have hnd : (sortLe le (l.map key).dedup).Nodup :=
    sortLe_nodup _ _ (List.nodup_dedup _)
  rw [filter_eq_of_nodup _ hnd k0]
  by_cases hin : k0 ∈ sortLe le (l.map key).dedup
  · rw [if_pos hin]
    simp only [List.map_cons, List.map_nil, List.sum_cons, List.sum_nil, add_zero]
  · rw [if_neg hin]
    have hnone : l.filter (fun a => decide (key a = k0)) = [] := by
      rw [List.filter_eq_nil_iff]
      intro a ha
      simp only [decide_eq_true_eq]
      intro hk
      exact hin ((sortLe_mem _ _ _).mpr (List.mem_dedup.mpr
        (List.mem_map.mpr ⟨a, ha, hk⟩)))
    rw [hnone]
    rfl

theorem revdaily_filter_sum (dt : List CalendarDay) (ym0 : Nat × Nat) :
    ∀ (rg : List ((Nat × Nat) × ℚ)),
      (((rg.filterMap
          (fun g => (monthLookup dt g.1.1).map (fun ym => (ym, g.2)))).filter
        (fun e => decide (e.1 = ym0))).map (fun e => e.2)).sum
      = ((rg.filter
          (fun g => monthLookup dt g.1.1 == some ym0)).map (fun g => g.2)).sum := by
  intro rg
  induction rg with
  | nil => rfl
  | cons g t ih =>
    cases hlk : monthLookup dt g.1.1 with
    | none =>
      rw [List.filterMap_cons_none (by simp [hlk])]
      rw [List.filter_cons_of_neg (by simp [hlk])]
      exact ih
    | some ym1 =>
      rw [List.filterMap_cons_some (b := (ym1, g.2)) (by simp [hlk])]
      by_cases hym : ym1 = ym0
      · subst hym
        rw [List.filter_cons_of_pos (by simp),
          List.filter_cons_of_pos (by simp [hlk])]
        simp only [List.map_cons, List.sum_cons]
        rw [ih]
      · rw [List.filter_cons_of_neg (by simpa using hym),
          List.filter_cons_of_neg (by simp [hlk, hym])]
        exact ih

/-- The renormalized per-month weights sum to 1 when the perturbed weight sum
is nonzero, so the month's OPEX postings sum to exactly −revenue·ratio. -/
theorem opexRecsOfMonth_sum (dt : List CalendarDay) (cc : List CostCenter)
    (ratio : ℚ) (noise : Nat → Nat → ℚ) (j : Nat) (ym : Nat × Nat) (rev : ℚ)
    (hcc : cc.length ≤ 6)
    (hnz : (List.zipWith (fun a b => a * b) (baseWeights cc.length)
      ((List.range cc.length).map (noise j))).sum ≠ 0)
    (k : Nat) (hk : month_end_key dt ym.1 ym.2 = some k) (hk0 : k ≠ 0) :
    ((opexRecsOfMonth dt cc ratio noise j ym rev).map (fun r => r.amount)).sum
      = -(rev * ratio) := by
  unfold opexRecsOfMonth
  rw [hk]
  dsimp only
  rw [if_neg hk0]
  rw [List.map_map]
  have hcomp : ((fun r : PostingRec => r.amount) ∘
      (fun cw : CostCenter × ℚ =>
        ({ date_key := k, account_id := dept_to_account cw.1.department
           cost_center_id := some cw.1.cost_center_id
           amount := -(rev * ratio) * cw.2, currency := "EUR" } : PostingRec)))
      = (fun x : ℚ => -(rev * ratio) * x) ∘ Prod.snd := rfl
  rw [hcomp, ← List.map_map]
  have hlen : cc.length
      = ((List.zipWith (fun a b => a * b) (baseWeights cc.length)
          ((List.range cc.length).map (noise j))).map
        (fun x => x / (List.zipWith (fun a b => a * b) (baseWeights cc.length)
          ((List.range cc.length).map (noise j))).sum)).length := by
    simp only [List.length_map, List.length_zipWith, List.length_range,
      baseWeights_length cc.length hcc]
    omega
  rw [map_snd_zip_eq cc _ hlen]
  rw [show (fun x : ℚ => -(rev * ratio) * x) = (fun x : ℚ => -(rev * ratio) * id x)
    from rfl]
  rw [List.sum_map_mul_left, List.map_id, sum_map_div, div_self hnz, mul_one]

/-- Away from the month that owns posting date k, a month's OPEX postings
contribute nothing to the date-k filter. -/
theorem opexRecsOfMonth_filter_zero (s e : Date) (hs : ValidDate s)
    (cc : List CostCenter) (ratio : ℚ) (noise : Nat → Nat → ℚ) (j : Nat)
    (ym : Nat × Nat) (rev : ℚ) (y m k : Nat)
    (hk : month_end_key (generate_dim_time s e) y m = some k)
    (hym : ym ≠ (y, m)) :
    (((opexRecsOfMonth (generate_dim_time s e) cc ratio noise j ym rev).filter
      (fun r => isOpexAccount r.account_id && r.date_key == k)).map
      (fun r => r.amount)).sum = 0 := by
  unfold opexRecsOfMonth
  cases hk2 : month_end_key (generate_dim_time s e) ym.1 ym.2 with
  | none => rfl
  | some k2 =>
    dsimp only
    by_cases h0 : k2 = 0
    · rw [if_pos h0]
      rfl
    · rw [if_neg h0]
      have hkk : k2 ≠ k := by
        intro hkk
        subst hkk
        obtain ⟨hy, hm⟩ := month_end_key_inj s e hs ym.1 ym.2 y m k2 hk2 hk
        exact hym (by rw [← hy, ← hm])
      have hnil : ((cc.zip ((List.zipWith (fun a b => a * b)
          (baseWeights cc.length) ((List.range cc.length).map (noise j))).map
            (fun x => x / (List.zipWith (fun a b => a * b) (baseWeights cc.length)
              ((List.range cc.length).map (noise j))).sum))).map
          (fun cw : CostCenter × ℚ =>
            ({ date_key := k2, account_id := dept_to_account cw.1.department
               cost_center_id := some cw.1.cost_center_id
               amount := -(rev * ratio) * cw.2, currency := "EUR" } : PostingRec))).filter
          (fun r => isOpexAccount r.account_id && r.date_key == k) = [] := by
        rw [List.filter_eq_nil_iff]
        intro r hr
        simp only [List.mem_map] at hr
        obtain ⟨cw, _, rfl⟩ := hr
        simp [hkk]
      rw [hnil]
      rfl

/-- Filtering and projecting the numbered postings by id-independent fields
equals filtering and projecting the raw records. -/
theorem numberRecs_filter_proj {γ : Type} (q : Posting → Bool)
    (q2 : PostingRec → Bool) (f : Posting → γ) (f2 : PostingRec → γ)
    (hq : ∀ (i : Nat) (r : PostingRec),
      q ⟨i, r.date_key, r.account_id, r.cost_center_id, r.amount, r.currency⟩ = q2 r)
    (hf : ∀ (i : Nat) (r : PostingRec),
      f ⟨i, r.date_key, r.account_id, r.cost_center_id, r.amount, r.currency⟩ = f2 r) :
    ∀ (recs : List PostingRec) (n : Nat),
      ((numberRecs n recs).filter q).map f = (recs.filter q2).map f2 := by
  intro recs
  induction recs with
  | nil => intro n; rfl
  | cons r t ih =>
    intro n
    rw [numberRecs]
    by_cases h : q2 r
    · rw [List.filter_cons_of_pos (by rw [hq n r]; exact h),
        List.filter_cons_of_pos h, List.map_cons, List.map_cons, hf n r, ih (n + 1)]
    · rw [List.filter_cons_of_neg (by rw [hq n r]; simpa using h),
        List.filter_cons_of_neg (by simpa using h), ih (n + 1)]

theorem opexRecsOfMonth_mem (dt : List CalendarDay) (cc : List CostCenter)
    (ratio : ℚ) (noise : Nat → Nat → ℚ) (j : Nat) (ym : Nat × Nat) (rev : ℚ)
    (r : PostingRec) (hr : r ∈ opexRecsOfMonth dt cc ratio noise j ym rev) :
    isOpexAccount r.account_id = true ∧ isRevAccount r.account_id = false ∧
      (∃ c, r.cost_center_id = some c) := by
  unfold opexRecsOfMonth at hr
  cases hk2 : month_end_key dt ym.1 ym.2 with
  | none => rw [hk2] at hr; simp at hr
  | some k2 =>
    rw [hk2] at hr
    dsimp only at hr
    by_cases h0 : k2 = 0
    · rw [if_pos h0] at hr; simp at hr
    · rw [if_neg h0] at hr
      simp only [List.mem_map] at hr
      obtain ⟨cw, _, rfl⟩ := hr
      exact ⟨isOpexAccount_dept _, isRevAccount_dept _, cw.1.cost_center_id, rfl⟩

/-- On the owning month, the date-k filter keeps every OPEX posting. -/
theorem opexRecsOfMonth_filter_all (dt : List CalendarDay) (cc : List CostCenter)
    (ratio : ℚ) (noise : Nat → Nat → ℚ) (j : Nat) (ym : Nat × Nat) (rev : ℚ)
    (k : Nat) (hk : month_end_key dt ym.1 ym.2 = some k) (hk0 : k ≠ 0) :
    ((opexRecsOfMonth dt cc ratio noise j ym rev).filter
      (fun r => isOpexAccount r.account_id && r.date_key == k))
      = opexRecsOfMonth dt cc ratio noise j ym rev := by
  rw [List.filter_eq_self]
  intro r hr
  have hacct := (opexRecsOfMonth_mem dt cc ratio noise j ym rev r hr).1
  have hdk : r.date_key = k := by
    unfold opexRecsOfMonth at hr
    rw [hk] at hr
    dsimp only at hr
    rw [if_neg hk0] at hr
    simp only [List.mem_map] at hr
    obtain ⟨cw, _, rfl⟩ := hr
    rfl
  simp [hacct, hdk]

theorem sum_map_neg_mul (c : ℚ) (l : List ((Nat × Nat) × ℚ)) :
    (l.map (fun b => -(b.2 * c))).sum = -((l.map (fun b => b.2)).sum * c) := by
  induction l with
  | nil => simp
  | cons a t ih =>
    simp only [List.map_cons, List.sum_cons, ih]
    ring

set_option maxHeartbeats 2000000 in
/-- C7: for every month with a month-end posting date, the total of that
month's OPEX posting amounts equals exactly −(that month's total revenue
posting sum) × opex_ratio, because the noise-perturbed weights are
renormalized to sum to 1 before being multiplied by the monthly total (for
every random stream whose perturbed monthly weight sums are nonzero — a zero
sum would be a division by zero in the renormalization). -/
theorem C7_monthly_opex_totals (s e : Date) (hs : ValidDate s)
    (txs : List Transaction) (dp : List Product) (cc : List CostCenter)
    (ratio : ℚ) (noise : Nat → Nat → ℚ) (hcc : cc.length ≤ 6)
    (hnz : ∀ j, (List.zipWith (fun a b => a * b) (baseWeights cc.length)
      ((List.range cc.length).map (noise j))).sum ≠ 0)
    (y m k : Nat) (hk : month_end_key (generate_dim_time s e) y m = some k) :
    (((generate_fact_financials txs dp cc (generate_dim_time s e) ratio
        noise).filter (fun p => isOpexAccount p.account_id && p.date_key == k)).map
      (fun p => p.amount)).sum
    = -((((generate_fact_financials txs dp cc (generate_dim_time s e) ratio
          noise).filter (fun p => isRevAccount p.account_id &&
            monthLookup (generate_dim_time s e) p.date_key == some (y, m))).map
        (fun p => p.amount)).sum * ratio) := by
  have hk0 := month_end_key_ne_zero s e hs y m k hk
  unfold generate_fact_financials
  dsimp only
  rw [numberRecs_filter_proj
      (fun p => isOpexAccount p.account_id && p.date_key == k)
      (fun r => isOpexAccount r.account_id && r.date_key == k)
      (fun p => p.amount) (fun r => r.amount)
      (fun i r => rfl) (fun i r => rfl),
    numberRecs_filter_proj
      (fun p => isRevAccount p.account_id &&
        monthLookup (generate_dim_time s e) p.date_key == some (y, m))
      (fun r => isRevAccount r.account_id &&
        monthLookup (generate_dim_time s e) r.date_key == some (y, m))
      (fun p => p.amount) (fun r => r.amount)
      (fun i r => rfl) (fun i r => rfl)]
  simp only [List.filter_append, List.map_append, List.sum_append]
  have hrev0 : (((revenueGroups (txWithCategory txs dp)).map
      (fun g => (⟨g.1.1, g.1.2, none, g.2, "EUR"⟩ : PostingRec))).filter
      (fun r => isOpexAccount r.account_id && r.date_key == k)) = [] := by
    rw [List.filter_eq_nil_iff]
    intro r hr
    simp only [List.mem_map] at hr
    obtain ⟨g, hg, rfl⟩ := hr
    have hkey := (mem_groupBySum _ _ _ _ g hg).1
    simp only [List.mem_map] at hkey
    obtain ⟨tc, _, hkeq⟩ := hkey
    have hacct : g.1.2 = category_to_account tc.2 := by rw [← hkeq]
    simp [hacct, isOpexAccount_category]
  have hcogs0 : (((groupBySum (fun a b => a ≤ b) (fun tc => tc.1.date_key)
      (fun tc => tc.1.direct_cost) (txWithCategory txs dp)).map
      (fun g => (⟨g.1, 5000, none, -g.2, "EUR"⟩ : PostingRec))).filter
      (fun r => isOpexAccount r.account_id && r.date_key == k)) = [] := by
    rw [List.filter_eq_nil_iff]
    intro r hr
    simp only [List.mem_map] at hr
    obtain ⟨g, _, rfl⟩ := hr
    simp [isOpexAccount]
  have hcogs0r : (((groupBySum (fun a b => a ≤ b) (fun tc => tc.1.date_key)
      (fun tc => tc.1.direct_cost) (txWithCategory txs dp)).map
      (fun g => (⟨g.1, 5000, none, -g.2, "EUR"⟩ : PostingRec))).filter
      (fun r => isRevAccount r.account_id &&
        monthLookup (generate_dim_time s e) r.date_key == some (y, m))) = [] := by
    rw [List.filter_eq_nil_iff]
    intro r hr
    simp only [List.mem_map] at hr
    obtain ⟨g, _, rfl⟩ := hr
    simp [isRevAccount]
  have hopex0r : (((monthlyRev (generate_dim_time s e)
      (revenueGroups (txWithCategory txs dp))).enum.flatMap
      (fun me => opexRecsOfMonth (generate_dim_time s e) cc ratio noise me.1
        me.2.1 me.2.2)).filter
      (fun r => isRevAccount r.account_id &&
        monthLookup (generate_dim_time s e) r.date_key == some (y, m))) = [] := by
    rw [List.filter_flatMap, List.flatMap_eq_nil_iff]
    intro me _
    rw [List.filter_eq_nil_iff]
    intro r hr
    have hrv := (opexRecsOfMonth_mem _ _ _ _ _ _ _ r hr).2.1
    simp [hrv]
  have hopexL : ((((monthlyRev (generate_dim_time s e)
      (revenueGroups (txWithCategory txs dp))).enum.flatMap
      (fun me => opexRecsOfMonth (generate_dim_time s e) cc ratio noise me.1
        me.2.1 me.2.2)).filter
      (fun r => isOpexAccount r.account_id && r.date_key == k)).map
      (fun r => r.amount)).sum
      = -((((revenueGroups (txWithCategory txs dp)).filter
          (fun g => monthLookup (generate_dim_time s e) g.1.1 == some (y, m))).map
        (fun g => g.2)).sum * ratio) := by
    rw [List.filter_flatMap]
    rw [sum_flatMap]
    rw [show (monthlyRev (generate_dim_time s e)
        (revenueGroups (txWithCategory txs dp))).enum
      = (monthlyRev (generate_dim_time s e)
        (revenueGroups (txWithCategory txs dp))).enumFrom 0 from rfl]
    rw [sum_enumFrom_concentrated (fun b : (Nat × Nat) × ℚ => b.1) (y, m)
      (fun (i : Nat) (b : (Nat × Nat) × ℚ) =>
        (((opexRecsOfMonth (generate_dim_time s e) cc ratio noise i
          b.1 b.2).filter
        (fun r => isOpexAccount r.account_id && r.date_key == k)).map
        (fun r => r.amount)).sum)
      (fun b : (Nat × Nat) × ℚ => -(b.2 * ratio))
      (fun i b hb => opexRecsOfMonth_filter_zero s e hs cc ratio noise i b.1
        b.2 y m k hk hb)
      (fun i b hb => by
        dsimp only at hb ⊢
        rw [hb, opexRecsOfMonth_filter_all (generate_dim_time s e) cc ratio
            noise i (y, m) b.2 k hk hk0,
          opexRecsOfMonth_sum (generate_dim_time s e) cc ratio noise i (y, m)
            b.2 hcc (hnz i) k hk hk0])]
    rw [sum_map_neg_mul ratio]
    unfold monthlyRev
    rw [groupBySum_filter_sum]
    rw [revdaily_filter_sum]
  have hrevR : ((((revenueGroups (txWithCategory txs dp)).map
      (fun g => (⟨g.1.1, g.1.2, none, g.2, "EUR"⟩ : PostingRec))).filter
      (fun r => isRevAccount r.account_id &&
        monthLookup (generate_dim_time s e) r.date_key == some (y, m))).map
      (fun r => r.amount)).sum
      = (((revenueGroups (txWithCategory txs dp)).filter
          (fun g => monthLookup (generate_dim_time s e) g.1.1 == some (y, m))).map
        (fun g => g.2)).sum := by
    rw [List.filter_map]
    rw [List.map_map]
    rw [List.filter_congr (q := fun g : (Nat × Nat) × ℚ =>
      monthLookup (generate_dim_time s e) g.1.1 == some (y, m)) ?_]
    · rfl
    · intro g hg
      have hkey := (mem_groupBySum _ _ _ _ g hg).1
      simp only [List.mem_map] at hkey
      obtain ⟨tc, _, hkeq⟩ := hkey
      have hacct : g.1.2 = category_to_account tc.2 := by rw [← hkeq]
      show (isRevAccount g.1.2 &&
        monthLookup (generate_dim_time s e) g.1.1 == some (y, m)) = _
      rw [hacct, isRevAccount_category, Bool.true_and]
  rw [hrev0, hcogs0, hcogs0r, hopex0r, hopexL, hrevR]
  simp only [List.map_nil, List.sum_nil, zero_add, add_zero]

set_option maxRecDepth 10000 in
/-- Witness for C7 at a concrete run: one 1000-revenue transaction in
January 2020, one cost center, ratio 1/4, unit noise. -/
theorem C7_monthly_opex_totals_witness :
    ValidDate ⟨2020, 1, 1⟩ ∧
    (generate_dim_cost_center 1).length ≤ 6 ∧
    month_end_key (generate_dim_time ⟨2020, 1, 1⟩ ⟨2020, 1, 31⟩) 2020 1
      = some 20200131 ∧
    (((generate_fact_financials [⟨1, 20200115, 1, 1, 1, 1000, 0, .Online⟩]
        [c9Product] (generate_dim_cost_center 1)
        (generate_dim_time ⟨2020, 1, 1⟩ ⟨2020, 1, 31⟩) (1/4)
        (fun _ _ => 1)).filter
        (fun p => isOpexAccount p.account_id && p.date_key == 20200131)).map
      (fun p => p.amount)).sum
    = -((((generate_fact_financials [⟨1, 20200115, 1, 1, 1, 1000, 0, .Online⟩]
          [c9Product] (generate_dim_cost_center 1)
          (generate_dim_time ⟨2020, 1, 1⟩ ⟨2020, 1, 31⟩) (1/4)
          (fun _ _ => 1)).filter
          (fun p => isRevAccount p.account_id &&
            monthLookup (generate_dim_time ⟨2020, 1, 1⟩ ⟨2020, 1, 31⟩)
              p.date_key == some (2020, 1))).map
        (fun p => p.amount)).sum * (1/4)) :=
  ⟨by decide, by decide, by decide,
    C7_monthly_opex_totals ⟨2020, 1, 1⟩ ⟨2020, 1, 31⟩ (by decide)
      [⟨1, 20200115, 1, 1, 1, 1000, 0, .Online⟩] [c9Product]
      (generate_dim_cost_center 1) (1/4) (fun _ _ => 1) (by decide)
      (by
        intro j
        rw [show (generate_dim_cost_center 1).length = 1 from rfl]
        norm_num [baseWeights]) 2020 1 20200131 (by decide)⟩

/-! ### Single-cost-center OPEX scenario (C5) -/

theorem dedup_const [DecidableEq κ] (a : κ) :
    ∀ (l : List κ), (∀ x ∈ l, x = a) → l ≠ [] → l.dedup = [a] := by
  intro l
  induction l with
  | nil => intro _ h; exact absurd rfl h
  | cons b t ih =>
    intro hall _
    have hb : b = a := hall b (List.mem_cons_self b t)
    subst hb
    cases t with
    | nil => rfl
    | cons c t2 =>
      have hc : c = b := hall c (List.mem_cons_of_mem b (List.mem_cons_self c t2))
      rw [List.dedup_cons_of_mem (by rw [hc]; exact List.mem_cons_self b t2)]
      exact ih (fun x hx => hall x (List.mem_cons_of_mem b hx)) (by simp)
  
/-- The filtered revenue-posting sum of a month equals the corresponding
revenue-group sum: COGS and OPEX postings never carry a revenue account. -/
theorem rev_postings_month_sum (txs : List Transaction) (dp : List Product)
    (cc : List CostCenter) (dt : List CalendarDay) (ratio : ℚ)
    (noise : Nat → Nat → ℚ) (ym0 : Nat × Nat) :
    (((generate_fact_financials txs dp cc dt ratio noise).filter
        (fun p => isRevAccount p.account_id &&
          monthLookup dt p.date_key == some ym0)).map (fun p => p.amount)).sum
    = (((revenueGroups (txWithCategory txs dp)).filter
        (fun g => monthLookup dt g.1.1 == some ym0)).map (fun g => g.2)).sum := by
  unfold generate_fact_financials
  dsimp only
  rw [numberRecs_filter_proj
      (fun p => isRevAccount p.account_id && monthLookup dt p.date_key == some ym0)
      (fun r => isRevAccount r.account_id && monthLookup dt r.date_key == some ym0)
      (fun p => p.amount) (fun r => r.amount)
      (fun i r => rfl) (fun i r => rfl)]
  simp only [List.filter_append, List.map_append, List.sum_append]
  have hcogs0r : (((groupBySum (fun a b => a ≤ b) (fun tc => tc.1.date_key)
      (fun tc => tc.1.direct_cost) (txWithCategory txs dp)).map
      (fun g => (⟨g.1, 5000, none, -g.2, "EUR"⟩ : PostingRec))).filter
      (fun r => isRevAccount r.account_id &&
        monthLookup dt r.date_key == some ym0)) = [] := by
    rw [List.filter_eq_nil_iff]
    intro r hr
    simp only [List.mem_map] at hr
    obtain ⟨g, _, rfl⟩ := hr
    simp [isRevAccount]
  have hopex0r : (((monthlyRev dt
      (revenueGroups (txWithCategory txs dp))).enum.flatMap
      (fun me => opexRecsOfMonth dt cc ratio noise me.1 me.2.1 me.2.2)).filter
      (fun r => isRevAccount r.account_id &&
        monthLookup dt r.date_key == some ym0)) = [] := by
    rw [List.filter_flatMap, List.flatMap_eq_nil_iff]
    intro me _
    rw [List.filter_eq_nil_iff]
    intro r hr
    have hrv := (opexRecsOfMonth_mem _ _ _ _ _ _ _ r hr).2.1
    simp [hrv]
  have hrevR : ((((revenueGroups (txWithCategory txs dp)).map
      (fun g => (⟨g.1.1, g.1.2, none, g.2, "EUR"⟩ : PostingRec))).filter
      (fun r => isRevAccount r.account_id &&
        monthLookup dt r.date_key == some ym0)).map
      (fun r => r.amount)).sum
      = (((revenueGroups (txWithCategory txs dp)).filter
          (fun g => monthLookup dt g.1.1 == some ym0)).map
        (fun g => g.2)).sum := by
    rw [List.filter_map]
    rw [List.map_map]
    rw [List.filter_congr (q := fun g : (Nat × Nat) × ℚ =>
      monthLookup dt g.1.1 == some ym0) ?_]
    · rfl
    · intro g hg
      have hkey := (mem_groupBySum _ _ _ _ g hg).1
      simp only [List.mem_map] at hkey
      obtain ⟨tc, _, hkeq⟩ := hkey
      have hacct : g.1.2 = category_to_account tc.2 := by rw [← hkeq]
      show (isRevAccount g.1.2 && monthLookup dt g.1.1 == some ym0) = _
      rw [hacct, isRevAccount_category, Bool.true_and]
  rw [hcogs0r, hopex0r, hrevR]
  simp only [List.map_nil, List.sum_nil, zero_add, add_zero]

set_option maxRecDepth 10000 in
set_option maxHeartbeats 1000000 in
/-- C5: with exactly one cost center, opex_ratio = 1/4 and a month (January
2020) whose revenue postings sum to 1000, the Financial Posting Derivation
emits exactly one OPEX posting for that month, dated on the month's
is_month_end date 2020-01-31, with amount exactly −250: the single weight
renormalizes to exactly 1 whatever the (nonzero) noise draw is. -/
theorem C5_one_cost_center_scenario (txs : List Transaction) (dp : List Product)
    (nv : ℚ) (hn : nv ≠ 0)
    (hrev : (((generate_fact_financials txs dp (generate_dim_cost_center 1)
        (generate_dim_time ⟨2020, 1, 1⟩ ⟨2020, 1, 31⟩) (1/4)
        (fun _ _ => nv)).filter
        (fun p => isRevAccount p.account_id &&
          monthLookup (generate_dim_time ⟨2020, 1, 1⟩ ⟨2020, 1, 31⟩) p.date_key
            == some (2020, 1))).map (fun p => p.amount)).sum = 1000) :
    month_end_key (generate_dim_time ⟨2020, 1, 1⟩ ⟨2020, 1, 31⟩) 2020 1
      = some 20200131 ∧
    (((generate_fact_financials txs dp (generate_dim_cost_center 1)
        (generate_dim_time ⟨2020, 1, 1⟩ ⟨2020, 1, 31⟩) (1/4)
        (fun _ _ => nv)).filter
        (fun p => isOpexAccount p.account_id && p.date_key == 20200131)).map
      (fun p => (p.date_key, p.account_id, p.cost_center_id, p.amount)))
      = [(20200131, 6000, some 1, -250)] := by
  rw [rev_postings_month_sum] at hrev
  refine ⟨by decide, ?_⟩
  unfold generate_fact_financials
  dsimp only
  rw [numberRecs_filter_proj
      (fun p => isOpexAccount p.account_id && p.date_key == 20200131)
      (fun r => isOpexAccount r.account_id && r.date_key == 20200131)
      (fun p => (p.date_key, p.account_id, p.cost_center_id, p.amount))
      (fun r => (r.date_key, r.account_id, r.cost_center_id, r.amount))
      (fun i r => rfl) (fun i r => rfl)]
  simp only [List.filter_append, List.map_append]
  have hrev0 : (((revenueGroups (txWithCategory txs dp)).map
      (fun g => (⟨g.1.1, g.1.2, none, g.2, "EUR"⟩ : PostingRec))).filter
      (fun r => isOpexAccount r.account_id && r.date_key == 20200131)) = [] := by
    rw [List.filter_eq_nil_iff]
    intro r hr
    simp only [List.mem_map] at hr
    obtain ⟨g, hg, rfl⟩ := hr
    have hkey := (mem_groupBySum _ _ _ _ g hg).1
    simp only [List.mem_map] at hkey
    obtain ⟨tc, _, hkeq⟩ := hkey
    have hacct : g.1.2 = category_to_account tc.2 := by rw [← hkeq]
    simp [hacct, isOpexAccount_category]
  have hcogs0 : (((groupBySum (fun a b => a ≤ b) (fun tc => tc.1.date_key)
      (fun tc => tc.1.direct_cost) (txWithCategory txs dp)).map
      (fun g => (⟨g.1, 5000, none, -g.2, "EUR"⟩ : PostingRec))).filter
      (fun r => isOpexAccount r.account_id && r.date_key == 20200131)) = [] := by
    rw [List.filter_eq_nil_iff]
    intro r hr
    simp only [List.mem_map] at hr
    obtain ⟨g, _, rfl⟩ := hr
    simp [isOpexAccount]
  rw [hrev0, hcogs0]
  simp only [List.map_nil, List.nil_append]
  have hally : ∀ r ∈ generate_dim_time ⟨2020, 1, 1⟩ ⟨2020, 1, 31⟩,
      r.year = 2020 ∧ r.month = 1 := by decide
  have hym : ∀ (kk : Nat) (ym : Nat × Nat),
      monthLookup (generate_dim_time ⟨2020, 1, 1⟩ ⟨2020, 1, 31⟩) kk = some ym →
        ym = (2020, 1) := by
    intro kk ym h
    unfold monthLookup at h
    cases hf : (generate_dim_time ⟨2020, 1, 1⟩ ⟨2020, 1, 31⟩).find?
        (fun r => r.date_key == kk) with
    | none => rw [hf] at h; simp at h
    | some row =>
      rw [hf] at h
      simp only [Option.map_some', Option.some.injEq] at h
      obtain ⟨hy, hm⟩ := hally row (List.mem_of_find?_eq_some hf)
      rw [← h, hy, hm]
  have hallkeys : ∀ x ∈ ((revenueGroups (txWithCategory txs dp)).filterMap
      (fun g => (monthLookup (generate_dim_time ⟨2020, 1, 1⟩ ⟨2020, 1, 31⟩)
        g.1.1).map (fun ym => (ym, g.2)))).map (fun e => e.1),
      x = ((2020 : Nat), (1 : Nat)) := by
    intro x hx
    simp only [List.mem_map, List.mem_filterMap] at hx
    obtain ⟨ep, ⟨g, _, hgep⟩, rfl⟩ := hx
    cases hlk : monthLookup (generate_dim_time ⟨2020, 1, 1⟩ ⟨2020, 1, 31⟩) g.1.1 with
    | none => rw [hlk] at hgep; simp at hgep
    | some ym =>
      rw [hlk] at hgep
      simp only [Option.map_some', Option.some.injEq] at hgep
      rw [← hgep]
      exact hym g.1.1 ym hlk
  by_cases hRDnil : ((revenueGroups (txWithCategory txs dp)).filterMap
      (fun g => (monthLookup (generate_dim_time ⟨2020, 1, 1⟩ ⟨2020, 1, 31⟩)
        g.1.1).map (fun ym => (ym, g.2)))) = []
  · exfalso
    have hfz : (revenueGroups (txWithCategory txs dp)).filter
        (fun g => monthLookup (generate_dim_time ⟨2020, 1, 1⟩ ⟨2020, 1, 31⟩)
          g.1.1 == some (2020, 1)) = [] := by
      rw [List.filter_eq_nil_iff]
      intro g hg
      have hnone := List.filterMap_eq_nil_iff.mp hRDnil g hg
      cases hlk : monthLookup (generate_dim_time ⟨2020, 1, 1⟩ ⟨2020, 1, 31⟩) g.1.1 with
      | none => simp [hlk]
      | some ym => rw [hlk] at hnone; simp at hnone
    rw [hfz] at hrev
    simp at hrev
  · have hmon : monthlyRev (generate_dim_time ⟨2020, 1, 1⟩ ⟨2020, 1, 31⟩)
        (revenueGroups (txWithCategory txs dp))
        = [(((2020 : Nat), (1 : Nat)),
            ((((revenueGroups (txWithCategory txs dp)).filterMap
              (fun g => (monthLookup (generate_dim_time ⟨2020, 1, 1⟩ ⟨2020, 1, 31⟩)
                g.1.1).map (fun ym => (ym, g.2)))).filter
              (fun e => decide (e.1 = ((2020 : Nat), (1 : Nat))))).map
              (fun e => e.2)).sum)] := by
      unfold monthlyRev groupBySum
      rw [dedup_const ((2020 : Nat), (1 : Nat)) _ hallkeys
        (by simpa using hRDnil)]
      rfl
    rw [hmon]
    have hv : ((((revenueGroups (txWithCategory txs dp)).filterMap
        (fun g => (monthLookup (generate_dim_time ⟨2020, 1, 1⟩ ⟨2020, 1, 31⟩)
          g.1.1).map (fun ym => (ym, g.2)))).filter
        (fun e => decide (e.1 = ((2020 : Nat), (1 : Nat))))).map
        (fun e => e.2)).sum = 1000 := by
      rw [revdaily_filter_sum]
      exact hrev
    rw [hv]
    rw [show ∀ x : (Nat × Nat) × ℚ, ([x] : List ((Nat × Nat) × ℚ)).enum = [(0, x)]
      from fun _ => rfl]
    rw [List.flatMap_cons, List.flatMap_nil, List.append_nil]
    rw [opexRecsOfMonth_filter_all (generate_dim_time ⟨2020, 1, 1⟩ ⟨2020, 1, 31⟩)
      (generate_dim_cost_center 1) (1/4) (fun _ _ => nv) 0
      ((2020 : Nat), (1 : Nat)) 1000 20200131 (by decide) (by decide)]
    unfold opexRecsOfMonth
    rw [show month_end_key (generate_dim_time ⟨2020, 1, 1⟩ ⟨2020, 1, 31⟩)
      ((2020 : Nat), (1 : Nat)).1 ((2020 : Nat), (1 : Nat)).2 = some 20200131
      from by decide]
    dsimp only
    rw [if_neg (by decide : ¬ (20200131 = 0))]
    rw [show generate_dim_cost_center 1
      = [⟨1, "Sales", "DE", "Manager Sales"⟩] from rfl]
    rw [show ([(⟨1, "Sales", "DE", "Manager Sales"⟩ : CostCenter)]).length = 1
      from rfl]
    norm_num [baseWeights, List.zipWith, dept_to_account, div_self hn]

set_option maxRecDepth 10000 in
/-- Witness for C5: one 1000-revenue January 2020 transaction, one cost
center, noise draw 1. -/
theorem C5_one_cost_center_scenario_witness :
    ((1 : ℚ) ≠ 0) ∧
    (month_end_key (generate_dim_time ⟨2020, 1, 1⟩ ⟨2020, 1, 31⟩) 2020 1
        = some 20200131 ∧
      (((generate_fact_financials [⟨1, 20200115, 1, 1, 1, 1000, 0, .Online⟩]
          [c9Product] (generate_dim_cost_center 1)
          (generate_dim_time ⟨2020, 1, 1⟩ ⟨2020, 1, 31⟩) (1/4)
          (fun _ _ => 1)).filter
          (fun p => isOpexAccount p.account_id && p.date_key == 20200131)).map
        (fun p => (p.date_key, p.account_id, p.cost_center_id, p.amount)))
        = [(20200131, 6000, some 1, -250)]) := by
  have h1 : txWithCategory
      [(⟨1, 20200115, 1, 1, 1, 1000, 0, .Online⟩ : Transaction)] [c9Product]
      = [(⟨1, 20200115, 1, 1, 1, 1000, 0, .Online⟩, Category.Subscription)] := rfl
  have h2 : revenueGroups
      [((⟨1, 20200115, 1, 1, 1, 1000, 0, .Online⟩ : Transaction),
        Category.Subscription)]
      = [((20200115, 4000), (1000 : ℚ))] := by
    unfold revenueGroups groupBySum
    rw [show ([((⟨1, 20200115, 1, 1, 1, 1000, 0, .Online⟩ : Transaction),
        Category.Subscription)].map
        (fun tc => (tc.1.date_key, category_to_account tc.2)))
      = [((20200115 : Nat), (4000 : Nat))] from rfl]
    rw [show (([((20200115 : Nat), (4000 : Nat))]).dedup)
      = [((20200115 : Nat), (4000 : Nat))] from by decide]
    rw [show sortLe lex2 [((20200115 : Nat), (4000 : Nat))]
      = [((20200115 : Nat), (4000 : Nat))] from rfl]
    rw [List.map_cons, List.map_nil]
    rw [List.filter_cons_of_pos (by decide), List.filter_nil]
    norm_num
  have hrev : (((generate_fact_financials
      [⟨1, 20200115, 1, 1, 1, 1000, 0, .Online⟩] [c9Product]
      (generate_dim_cost_center 1)
      (generate_dim_time ⟨2020, 1, 1⟩ ⟨2020, 1, 31⟩) (1/4)
      (fun _ _ => (1 : ℚ))).filter
      (fun p => isRevAccount p.account_id &&
        monthLookup (generate_dim_time ⟨2020, 1, 1⟩ ⟨2020, 1, 31⟩) p.date_key
          == some (2020, 1))).map (fun p => p.amount)).sum = 1000 := by
    rw [rev_postings_month_sum, h1, h2]
    rw [List.filter_cons_of_pos (by decide), List.filter_nil]
    norm_num
  exact ⟨by norm_num,
    C5_one_cost_center_scenario [⟨1, 20200115, 1, 1, 1, 1000, 0, .Online⟩]
      [c9Product] 1 (by norm_num) hrev⟩

/-! ### Sign lemmas for C4 -/

theorem snd_mem_of_mem_enumFrom {β : Type} :
    ∀ (l : List β) (n : Nat) (x : Nat × β), x ∈ l.enumFrom n → x.2 ∈ l := by
  intro l
  induction l with
  | nil => intro n x h; simp at h
  | cons a t ih =>
    intro n x h
    rw [List.enumFrom] at h
    rcases List.mem_cons.mp h with rfl | h
    · exact List.mem_cons_self a t
    · exact List.mem_cons_of_mem a (ih (n + 1) x h)

theorem txWithCategory_nonneg (txs : List Transaction) (dp : List Product)
    (htx : ∀ t ∈ txs, 0 ≤ t.net_revenue ∧ 0 ≤ t.direct_cost) :
    ∀ tc ∈ txWithCategory txs dp, 0 ≤ tc.1.net_revenue ∧ 0 ≤ tc.1.direct_cost := by
  intro tc h
  simp only [txWithCategory, List.mem_filterMap] at h
  obtain ⟨t, ht, hsome⟩ := h
  obtain ⟨pr, hfind, rfl⟩ := Option.map_eq_some'.mp hsome
  exact htx t ht

theorem monthlyRev_val_nonneg (dt : List CalendarDay)
    (rg : List ((Nat × Nat) × ℚ)) (h : ∀ g ∈ rg, 0 ≤ g.2) :
    ∀ e ∈ monthlyRev dt rg, 0 ≤ e.2 := by
  intro e he
  rw [(mem_groupBySum _ _ _ _ _ he).2]
  apply List.sum_nonneg
  intro x hx
  simp only [List.mem_map] at hx
  obtain ⟨a, ha, rfl⟩ := hx
  have ha2 := List.mem_of_mem_filter ha
  simp only [List.mem_filterMap] at ha2
  obtain ⟨g, hg, hsome⟩ := ha2
  obtain ⟨ym, hym, rfl⟩ := Option.map_eq_some'.mp hsome
  exact h g hg

theorem opexRecsOfMonth_amount_nonpos (dt : List CalendarDay)
    (cc : List CostCenter) (ratio : ℚ) (noise : Nat → Nat → ℚ) (j : Nat)
    (ym : Nat × Nat) (rev : ℚ) (hra : 0 ≤ ratio) (hrev : 0 ≤ rev)
    (hno : ∀ i, 0 ≤ noise j i) (r : PostingRec)
    (hmem : r ∈ opexRecsOfMonth dt cc ratio noise j ym rev) :
    r.amount ≤ 0 := by
  unfold opexRecsOfMonth at hmem
  cases hk2 : month_end_key dt ym.1 ym.2 with
  | none => rw [hk2] at hmem; simp at hmem
  | some k2 =>
    rw [hk2] at hmem
    dsimp only at hmem
    by_cases h0 : k2 = 0
    · rw [if_pos h0] at hmem; simp at hmem
    · rw [if_neg h0] at hmem
      simp only [List.mem_map] at hmem
      obtain ⟨cw, hcw, rfl⟩ := hmem
      have hwnn : ∀ y ∈ List.zipWith (fun a b => a * b) (baseWeights cc.length)
          ((List.range cc.length).map (noise j)), 0 ≤ y := by
        intro y hy
        obtain ⟨a, ha, b, hb, rfl⟩ := mem_zipWith _ _ _ _ hy
        have hb2 : 0 ≤ b := by
          simp only [List.mem_map] at hb
          obtain ⟨i, _, rfl⟩ := hb
          exact hno i
        exact mul_nonneg (baseWeights_nonneg _ _ ha) hb2
      have hw : 0 ≤ cw.2 := by
        obtain ⟨c1, w2⟩ := cw
        have hcw2 := (List.of_mem_zip hcw).2
        simp only [List.mem_map] at hcw2
        obtain ⟨x, hx, rfl⟩ := hcw2
        exact div_nonneg (hwnn x hx) (List.sum_nonneg hwnn)
      show -(rev * ratio) * cw.2 ≤ 0
      rw [neg_mul]
      exact neg_nonpos.mpr (mul_nonneg (mul_nonneg hrev hra) hw)

/-- C4 (amended): for every posting, revenue postings (accounts
4000/4001/4002) carry no cost center and a nonnegative amount, COGS postings
(account 5000) carry no cost center and a nonpositive amount, and OPEX
postings (accounts 6000/6100/6200/6300) carry a cost center and a nonpositive
amount — PROVIDED the transaction amounts are nonnegative, the opex ratio is
nonnegative, and every noise draw is nonnegative. The unqualified claim over
every random stream is refuted by C4_positive_opex_counterexample: the noise
is drawn from normal(1.0, 0.05), whose support includes negative values, and
a negative draw flips an OPEX amount positive. -/
theorem C4_posting_sign_invariants (txs : List Transaction) (dp : List Product)
    (cc : List CostCenter) (dt : List CalendarDay) (ratio : ℚ)
    (noise : Nat → Nat → ℚ)
    (htx : ∀ t ∈ txs, 0 ≤ t.net_revenue ∧ 0 ≤ t.direct_cost)
    (hra : 0 ≤ ratio) (hno : ∀ j i, 0 ≤ noise j i) :
    ∀ p ∈ generate_fact_financials txs dp cc dt ratio noise,
      (isRevAccount p.account_id = true → p.cost_center_id = none ∧ 0 ≤ p.amount) ∧
      (p.account_id = 5000 → p.cost_center_id = none ∧ p.amount ≤ 0) ∧
      (isOpexAccount p.account_id = true →
        p.cost_center_id ≠ none ∧ p.amount ≤ 0) := by
  intro p hp
  unfold generate_fact_financials at hp
  dsimp only at hp
  obtain ⟨r, hrmem, hdk, hacct, hcc, hamt⟩ := mem_numberRecs p _ 1 hp
  have htc := txWithCategory_nonneg txs dp htx
  rw [List.mem_append, List.mem_append] at hrmem
  rcases hrmem with (hrev | hcogs) | hopex
  · simp only [List.mem_map] at hrev
    obtain ⟨g, hg, rfl⟩ := hrev
    dsimp only at hacct hcc hamt
    have hkey := (mem_groupBySum _ _ _ _ _ hg).1
    simp only [List.mem_map] at hkey
    obtain ⟨tc, htcm, hkeq⟩ := hkey
    have hacct2 : p.account_id = category_to_account tc.2 := by
      rw [hacct, ← hkeq]
    have hval : 0 ≤ g.2 := by
      rw [(mem_groupBySum _ _ _ _ _ hg).2]
      apply List.sum_nonneg
      intro x hx
      simp only [List.mem_map] at hx
      obtain ⟨tc2, htc2, rfl⟩ := hx
      exact (htc tc2 (List.mem_of_mem_filter htc2)).1
    refine ⟨fun _ => ⟨hcc, by rw [hamt]; exact hval⟩, ?_, ?_⟩
    · intro h5
      rw [hacct2] at h5
      obtain ⟨t0, c0⟩ := tc
      cases c0 <;> simp [category_to_account] at h5
    · intro hox
      rw [hacct2, isOpexAccount_category] at hox
      exact absurd hox (by decide)
  · simp only [List.mem_map] at hcogs
    obtain ⟨g, hg, rfl⟩ := hcogs
    dsimp only at hacct hcc hamt
    have hval : 0 ≤ g.2 := by
      rw [(mem_groupBySum _ _ _ _ _ hg).2]
      apply List.sum_nonneg
      intro x hx
      simp only [List.mem_map] at hx
      obtain ⟨tc2, htc2, rfl⟩ := hx
      exact (htc tc2 (List.mem_of_mem_filter htc2)).2
    refine ⟨?_, fun _ => ⟨hcc, by rw [hamt]; exact neg_nonpos.mpr hval⟩, ?_⟩
    · intro hx
      rw [hacct] at hx
      exact absurd hx (by decide)
    · intro hx
      rw [hacct] at hx
      exact absurd hx (by decide)
  · simp only [List.mem_flatMap] at hopex
    obtain ⟨me, hme, hrop⟩ := hopex
    obtain ⟨hox, hrv, c0, hc0⟩ := opexRecsOfMonth_mem _ _ _ _ _ _ _ _ hrop
    have hrev0 : 0 ≤ me.2.2 := by
      have hm2 : me.2 ∈ monthlyRev dt (revenueGroups (txWithCategory txs dp)) :=
        snd_mem_of_mem_enumFrom _ 0 me hme
      refine monthlyRev_val_nonneg dt _ ?_ me.2 hm2
      intro g hg
      rw [(mem_groupBySum _ _ _ _ _ hg).2]
      apply List.sum_nonneg
      intro x hx
      simp only [List.mem_map] at hx
      obtain ⟨tc2, htc2, rfl⟩ := hx
      exact (htc tc2 (List.mem_of_mem_filter htc2)).1
    have hle := opexRecsOfMonth_amount_nonpos dt cc ratio noise me.1 me.2.1
      me.2.2 hra hrev0 (fun i => hno me.1 i) r hrop
    refine ⟨?_, ?_, fun _ => ⟨by rw [hcc, hc0]; simp, by rw [hamt]; exact hle⟩⟩
    · intro hx
      rw [hacct, hrv] at hx
      exact absurd hx (by decide)
    · intro h5
      rw [← hacct, h5] at hox
      exact absurd hox (by decide)

/-- Witness for C4: a one-transaction run with nonnegative amounts,
ratio 1/4 and constant noise 1. -/
theorem C4_posting_sign_invariants_witness :
    (∀ t ∈ [(⟨1, 20200115, 1, 1, 1, 1000, 0, .Online⟩ : Transaction)],
        0 ≤ t.net_revenue ∧ 0 ≤ t.direct_cost) ∧
    (0 ≤ (1/4 : ℚ)) ∧
    (∀ p ∈ generate_fact_financials [⟨1, 20200115, 1, 1, 1, 1000, 0, .Online⟩]
        [c9Product] (generate_dim_cost_center 1)
        (generate_dim_time ⟨2020, 1, 1⟩ ⟨2020, 1, 31⟩) (1/4) (fun _ _ => 1),
      (isRevAccount p.account_id = true → p.cost_center_id = none ∧ 0 ≤ p.amount) ∧
      (p.account_id = 5000 → p.cost_center_id = none ∧ p.amount ≤ 0) ∧
      (isOpexAccount p.account_id = true →
        p.cost_center_id ≠ none ∧ p.amount ≤ 0)) := by
  have h1 : ∀ t ∈ [(⟨1, 20200115, 1, 1, 1, 1000, 0, .Online⟩ : Transaction)],
      0 ≤ t.net_revenue ∧ 0 ≤ t.direct_cost := by
    intro t ht
    rw [List.mem_singleton] at ht
    subst ht
    exact ⟨by norm_num, by norm_num⟩
  exact ⟨h1, by norm_num,
    C4_posting_sign_invariants _ _ _ _ _ _ h1 (by norm_num)
      (fun j i => by norm_num)⟩

theorem numberRecs_mem_of_mem (r : PostingRec) :
    ∀ (recs : List PostingRec) (n : Nat), r ∈ recs →
      ∃ p ∈ numberRecs n recs, p.date_key = r.date_key ∧
        p.account_id = r.account_id ∧ p.cost_center_id = r.cost_center_id ∧
        p.amount = r.amount := by
  intro recs
  induction recs with
  | nil => intro n h; simp at h
  | cons a t ih =>
    intro n h
    rw [numberRecs]
    rcases List.mem_cons.mp h with rfl | h
    · exact ⟨_, List.mem_cons_self _ _, rfl, rfl, rfl, rfl⟩
    · obtain ⟨p, hp, hf⟩ := ih (n + 1) h
      exact ⟨p, List.mem_cons_of_mem _ hp, hf⟩

set_option maxRecDepth 10000 in
/-- C4 counterexample: the per-month cost-center noise is drawn from
normal(1.0, 0.05), whose support contains negative numbers; a draw of
(-1, 3) over two cost centers flips the first adjusted weight negative,
producing an OPEX posting (account 6000, with a cost center) with a
strictly positive amount 200. -/
theorem C4_positive_opex_counterexample :
    ∃ p ∈ generate_fact_financials [⟨1, 20200115, 1, 1, 1, 1000, 0, .Online⟩]
      [c9Product] (generate_dim_cost_center 2)
      (generate_dim_time ⟨2020, 1, 1⟩ ⟨2020, 1, 31⟩) (1/4)
      (fun _ i => if i = 0 then -1 else 3),
      isOpexAccount p.account_id = true ∧ p.cost_center_id ≠ none ∧
        0 < p.amount := by
  have h6 : opexRecsOfMonth (generate_dim_time ⟨2020, 1, 1⟩ ⟨2020, 1, 31⟩)
      (generate_dim_cost_center 2) (1/4)
      (fun _ i => if i = 0 then (-1 : ℚ) else 3)
      0 ((2020 : Nat), (1 : Nat)) (1000 : ℚ)
      = [⟨20200131, 6000, some 1, (200 : ℚ), "EUR"⟩,
         ⟨20200131, 6000, some 2, (-450 : ℚ), "EUR"⟩] := by
    unfold opexRecsOfMonth
    dsimp only
    rw [show month_end_key (generate_dim_time ⟨2020, 1, 1⟩ ⟨2020, 1, 31⟩) 2020 1
      = some 20200131 from by decide]
    dsimp only
    rw [if_neg (by decide)]
    rw [show generate_dim_cost_center 2
      = [⟨1, "Sales", "DE", "Manager " ++ "Sales"⟩,
         ⟨2, "Marketing", "DE", "Manager " ++ "Marketing"⟩] from rfl]
    rw [show ([(⟨1, "Sales", "DE", "Manager " ++ "Sales"⟩ : CostCenter),
         ⟨2, "Marketing", "DE", "Manager " ++ "Marketing"⟩] : List CostCenter).length
      = 2 from rfl]
    rw [show List.range 2 = [0, 1] from rfl]
    rw [show baseWeights 2 = [(4/7 : ℚ), 3/7] from by norm_num [baseWeights, List.take]]
    norm_num [dept_to_account, List.zipWith, List.zip_cons_cons]
  have h1 : txWithCategory
      [(⟨1, 20200115, 1, 1, 1, 1000, 0, .Online⟩ : Transaction)] [c9Product]
      = [(⟨1, 20200115, 1, 1, 1, 1000, 0, .Online⟩, Category.Subscription)] := rfl
  have h2 : revenueGroups
      [((⟨1, 20200115, 1, 1, 1, 1000, 0, .Online⟩ : Transaction),
        Category.Subscription)]
      = [((20200115, 4000), (1000 : ℚ))] := by
    unfold revenueGroups groupBySum
    rw [show ([((⟨1, 20200115, 1, 1, 1, 1000, 0, .Online⟩ : Transaction),
        Category.Subscription)].map
        (fun tc => (tc.1.date_key, category_to_account tc.2)))
      = [((20200115 : Nat), (4000 : Nat))] from rfl]
    rw [show (([((20200115 : Nat), (4000 : Nat))]).dedup)
      = [((20200115 : Nat), (4000 : Nat))] from by decide]
    rw [show sortLe lex2 [((20200115 : Nat), (4000 : Nat))]
      = [((20200115 : Nat), (4000 : Nat))] from rfl]
    rw [List.map_cons, List.map_nil]
    rw [List.filter_cons_of_pos (by decide), List.filter_nil]
    norm_num
  have h3 : groupBySum (fun a b => a ≤ b) (fun tc => tc.1.date_key)
      (fun tc => tc.1.direct_cost)
      [((⟨1, 20200115, 1, 1, 1, 1000, 0, .Online⟩ : Transaction),
        Category.Subscription)]
      = [((20200115 : Nat), (0 : ℚ))] := by
    unfold groupBySum
    rw [show ([((⟨1, 20200115, 1, 1, 1, 1000, 0, .Online⟩ : Transaction),
        Category.Subscription)].map (fun tc => tc.1.date_key))
      = [(20200115 : Nat)] from rfl]
    rw [show (([(20200115 : Nat)]).dedup) = [(20200115 : Nat)] from by decide]
    rw [show sortLe (fun (a b : Nat) => (decide (a ≤ b))) [(20200115 : Nat)]
      = [(20200115 : Nat)] from rfl]
    rw [List.map_cons, List.map_nil]
    rw [List.filter_cons_of_pos (by decide), List.filter_nil]
    norm_num
  have h4 : monthlyRev (generate_dim_time ⟨2020, 1, 1⟩ ⟨2020, 1, 31⟩)
      [(((20200115 : Nat), (4000 : Nat)), (1000 : ℚ))]
      = [(((2020 : Nat), (1 : Nat)), (1000 : ℚ))] := by
    unfold monthlyRev
    rw [show (List.filterMap
        (fun (g : (Nat × Nat) × ℚ) =>
          (monthLookup (generate_dim_time ⟨2020, 1, 1⟩ ⟨2020, 1, 31⟩) g.1.1).map
            (fun ym => (ym, g.2)))
        [(((20200115 : Nat), (4000 : Nat)), (1000 : ℚ))])
      = [(((2020 : Nat), (1 : Nat)), (1000 : ℚ))] from rfl]
    unfold groupBySum
    rw [show ([(((2020 : Nat), (1 : Nat)), (1000 : ℚ))].map (fun e => e.1))
      = [((2020 : Nat), (1 : Nat))] from rfl]
    rw [show (([((2020 : Nat), (1 : Nat))]).dedup)
      = [((2020 : Nat), (1 : Nat))] from by decide]
    rw [show sortLe lex2 [((2020 : Nat), (1 : Nat))]
      = [((2020 : Nat), (1 : Nat))] from rfl]
    rw [List.map_cons, List.map_nil]
    rw [List.filter_cons_of_pos (by decide), List.filter_nil]
    norm_num
  unfold generate_fact_financials
  dsimp only
  rw [h1, h2, h3, h4]
  rw [show ([(((2020 : Nat), (1 : Nat)), (1000 : ℚ))].enum)
    = [((0 : Nat), (((2020 : Nat), (1 : Nat)), (1000 : ℚ)))] from rfl]
  rw [List.flatMap_cons, List.flatMap_nil]
  dsimp only
  rw [h6, List.append_nil]
  simp only [List.map_cons, List.map_nil]
  rw [show (([(⟨20200115, 4000, none, (1000 : ℚ), "EUR"⟩ : PostingRec)] ++
      [(⟨20200115, 5000, none, -(0 : ℚ), "EUR"⟩ : PostingRec)] ++
      [(⟨20200131, 6000, some 1, (200 : ℚ), "EUR"⟩ : PostingRec),
       ⟨20200131, 6000, some 2, (-450 : ℚ), "EUR"⟩]))
    = [(⟨20200115, 4000, none, (1000 : ℚ), "EUR"⟩ : PostingRec),
       ⟨20200115, 5000, none, -(0 : ℚ), "EUR"⟩,
       ⟨20200131, 6000, some 1, (200 : ℚ), "EUR"⟩,
       ⟨20200131, 6000, some 2, (-450 : ℚ), "EUR"⟩] from rfl]
  obtain ⟨p, hp, hdk, hacct, hcc, hamt⟩ :=
    numberRecs_mem_of_mem
      (⟨20200131, 6000, some 1, (200 : ℚ), "EUR"⟩ : PostingRec)
      [(⟨20200115, 4000, none, (1000 : ℚ), "EUR"⟩ : PostingRec),
       ⟨20200115, 5000, none, -(0 : ℚ), "EUR"⟩,
       ⟨20200131, 6000, some 1, (200 : ℚ), "EUR"⟩,
       ⟨20200131, 6000, some 2, (-450 : ℚ), "EUR"⟩] 1 (by simp)
  exact ⟨p, hp, by rw [hacct]; decide, by rw [hcc]; simp,
    by rw [hamt]; norm_num⟩

/-! ## The pipeline (src/synthetic_pipeline.py main, src/config.py,
src/utils.py) -/

/-- config.py: REVENUE_SEASONALITY, a quarterly multiplier. -/
def revenueSeasonality (q : Nat) : ℚ :=
  if q = 1 then 1 else if q = 2 then 0.95 else if q = 3 then 1.05 else 1.2

/-- config.py: MACRO_SHOCKS looked up by year, as transactions.py reads it —
MACRO_SHOCKS.get(year, 1.0). -/
def macroShocks (y : Nat) : ℚ :=
  if y = 2020 then 0.8 else if y = 2021 then 0.9 else if y = 2022 then 1.15
  else if y = 2023 then 1.05 else if y = 2024 then 1.02 else 1

/-- The configuration constants of config.py that the generators read. -/
structure Config where
  start_date : Date
  end_date : Date
  num_customers : Nat
  num_products : Nat
  num_cost_centers : Nat
  annual_churn_rate : ℚ
  base_margin : ℚ
  opex_ratio : ℚ
  seasonality : Nat → ℚ
  shocks : Nat → ℚ

/-- config.py defaults: 2020-01-01..2024-12-31, 3000 customers, 20 products,
6 cost centers, churn rate 0.12, base margin 0.45, opex ratio 0.25. -/
def defaultConfig : Config :=
  { start_date := ⟨2020, 1, 1⟩
    end_date := ⟨2024, 12, 31⟩
    num_customers := 3000
    num_products := 20
    num_cost_centers := 6
    annual_churn_rate := 0.12
    base_margin := 0.45
    opex_ratio := 0.25
    seasonality := revenueSeasonality
    shocks := macroShocks }

/-- All random draws the pipeline consumes: utils.py's single shared
generator, split into the customer, product, transaction and financial-noise
streams. -/
structure Randomness where
  customer : CustomerDraws
  product : ProductDraws
  tx : TxDraws
  opexNoise : Nat → Nat → ℚ

/-- One 64-bit linear congruential step (Knuth MMIX constants). -/
def lcgStep (n : Nat) : Nat :=
  (6364136223846793005 * n + 1442695040888963407) % (2 ^ 64)

/-- The i-th pseudo-random word of the stream seeded with seed. -/
def prnWord (seed i : Nat) : Nat := lcgStep (lcgStep (seed + i))

/-- A rational in [0, 1) from the i-th word. -/
def prnQ (seed i : Nat) : ℚ := ((prnWord seed i) % 1000000 : Nat) / 1000000

/-- A pairing index for two-dimensional draw positions. -/
def pairIdx (i j : Nat) : Nat := (i + j) * (i + j + 1) / 2 + j

/-- A pairing index for three-dimensional draw positions. -/
def tripleIdx (i j k : Nat) : Nat := pairIdx (pairIdx i j) k

/-- utils.py rng = np.random.default_rng(RNG_SEED), modeled as a pure
function of the seed: one deterministic stream (an LCG hash) split into the
17 channels the pipeline consumes.  Only the determinism of the stream
matters to the reproducibility property; the distributional shape of the
channels does not enter it. -/
def mkRandomness (seed : Nat) : Randomness :=
  { customer :=
      { acqU := fun i => prnQ seed (17 * i)
        churnU := fun i y => prnQ seed (1 + 17 * pairIdx i y)
        churnMonth := fun i y => 1 + prnWord seed (2 + 17 * pairIdx i y) % 12
        segU := fun i => prnQ seed (3 + 17 * i)
        regU := fun i => prnQ seed (4 + 17 * i)
        riskN := fun i => 300 + 550 * prnQ seed (5 + 17 * i) }
    product :=
      { catU := fun i => prnQ seed (6 + 17 * i)
        priceU := fun i => prnQ seed (7 + 17 * i)
        dcrN := fun i => prnQ seed (8 + 17 * i) - 1/2 }
    tx :=
      { spendTierU := fun i => prnQ seed (9 + 17 * i)
        nTx := fun i m => prnWord seed (10 + 17 * pairIdx i m) % 3
        dateU := fun i m j => prnWord seed (11 + 17 * tripleIdx i m j)
        prodU := fun i m j => prnWord seed (12 + 17 * tripleIdx i m j)
        qtyP := fun i m j => prnWord seed (13 + 17 * tripleIdx i m j) % 4
        noiseL := fun i m j =>
          1 + (prnQ seed (14 + 17 * tripleIdx i m j) - 1/2) / 4
        chanU := fun i m j => prnQ seed (15 + 17 * tripleIdx i m j) }
    opexNoise := fun j i => 1 + (prnQ seed (16 + 17 * pairIdx j i) - 1/2) / 10 }

/-- The seven artifacts main() generates and writes. -/
structure PipelineOutput where
  dim_time : List CalendarDay
  dim_customer : List Customer
  dim_product : List Product
  dim_account : List Account
  dim_cost_center : List CostCenter
  fact_transactions : TransactionTable
  fact_financials : List Posting
deriving DecidableEq, Repr

/-- src/synthetic_pipeline.py main(): the generation steps in program order
(the CSV writes serialize these artifacts unchanged).  There is no
configuration validation anywhere on this path: no generator and no pipeline
step inspects the configuration for validity before generating. -/
def runPipeline (cfg : Config) (r : Randomness) : PipelineOutput :=
  let dim_time := generate_dim_time cfg.start_date cfg.end_date
  let dim_customer :=
    generate_dim_customer dim_time cfg.num_customers cfg.annual_churn_rate
      r.customer
  let dim_product := generate_dim_product cfg.num_products cfg.base_margin
    r.product
  let dim_account := generate_dim_account
  let dim_cost_center := generate_dim_cost_center cfg.num_cost_centers
  let fact_transactions := generate_fact_transactions dim_customer dim_product
    dim_time cfg.seasonality cfg.shocks r.tx
  let fact_financials := generate_fact_financials fact_transactions.rows
    dim_product dim_cost_center dim_time cfg.opex_ratio r.opexNoise
  { dim_time := dim_time
    dim_customer := dim_customer
    dim_product := dim_product
    dim_account := dim_account
    dim_cost_center := dim_cost_center
    fact_transactions := fact_transactions
    fact_financials := fact_financials }

/-- An invalid configuration in the sense of the spec: a non-positive
customer count (0) and a churn probability (2) outside [0, 1], with the
default dates. -/
def invalidConfig : Config :=
  { defaultConfig with num_customers := 0, annual_churn_rate := 2 }

/-- C3: the code has no configuration validation.  With an invalid
configuration — a non-positive customer count and a churn probability
outside [0, 1] — the pipeline does not fail before generation begins: it
runs to completion and produces all artifacts (the full 1827-row calendar,
the 8-row chart of accounts, and empty but well-formed customer, transaction
and financial tables), contradicting the required fail-fast behavior. -/
theorem C3_no_config_validation :
    (runPipeline invalidConfig (mkRandomness 42)).dim_time.length = 1827 ∧
    (runPipeline invalidConfig (mkRandomness 42)).dim_account.length = 8 ∧
    (runPipeline invalidConfig (mkRandomness 42)).dim_customer = [] ∧
    (runPipeline invalidConfig (mkRandomness 42)).fact_transactions.rows
      = [] ∧
    (runPipeline invalidConfig (mkRandomness 42)).fact_transactions.columns
      = transactionColumns ∧
    (runPipeline invalidConfig (mkRandomness 42)).fact_financials = [] := by
  refine ⟨?_, rfl, rfl, rfl, rfl, rfl⟩
  show (generate_dim_time ⟨2020, 1, 1⟩ ⟨2024, 12, 31⟩).length = 1827
  rw [generate_dim_time, List.length_map, dateRangeAux_length]
  decide

/-- C8: the whole generation is a deterministic function of the
configuration and the seed: two runs with identical configuration whose
random streams both come from the generator seeded with the same seed
produce identical outputs for all seven artifacts — same rows, same values,
same order. -/
theorem C8_reproducibility (cfg : Config) (seed : Nat) (r1 r2 : Randomness)
    (h1 : r1 = mkRandomness seed) (h2 : r2 = mkRandomness seed) :
    runPipeline cfg r1 = runPipeline cfg r2 := by
  subst h1
  subst h2
  rfl

/-- Witness for C8: two runs at the default configuration and seed 42. -/
theorem C8_reproducibility_witness :
    runPipeline defaultConfig (mkRandomness 42)
      = runPipeline defaultConfig (mkRandomness 42) :=
  C8_reproducibility defaultConfig 42 (mkRandomness 42) (mkRandomness 42)
    rfl rfl
